import Mathlib

/-!
The filename matcher of go-42minutes (`matcher_simple.go`).

A shallow embedding of `SimpleMatch.Match` and of the library calls it relies on.

Conventions of the embedding:

* a Go `string` is a `List Char` (a sequence of runes; the model covers valid UTF-8 text);
* a Go `error` is an `Option Error` (`none` is `nil`);
* Go's multiple results are Lean pairs, in the order of the Go signature;
* the standard library is modelled for a Unix platform with a 64-bit `int`
  (`filepath.Separator = '/'`, `filepath.ListSeparator = ':'`, `strconv.IntSize = 64`);
* logging calls have no effect on results and are left out.
-/

namespace Minutes

/-! ## Package `regexp`: syntax and leftmost-first matching -/

/-- Abstract syntax of the regular expressions of the pattern tables. Capturing groups carry
their number (the rank of their opening parenthesis, as in Go). -/
inductive Regex where
  /-- The empty expression. -/
  | empty : Regex
  /-- The dot: any rune but a newline (no `s` flag is set). -/
  | any : Regex
  /-- A bracket class: the listed inclusive ranges, negated when `neg` is set. -/
  | cls (neg : Bool) (ranges : List (Char × Char)) : Regex
  /-- The caret: beginning of text (no `m` flag is set). -/
  | bol : Regex
  /-- The dollar: end of text (no `m` flag is set). -/
  | eol : Regex
  /-- Concatenation. -/
  | cat (a b : Regex) : Regex
  /-- Alternation; the left branch is preferred. -/
  | alt (a b : Regex) : Regex
  /-- Repetition between `min` and `max` times (`none`: unbounded); a greedy repetition
  prefers more iterations, a lazy one fewer. -/
  | rep (min : Nat) (max : Option Nat) (greedy : Bool) (r : Regex) : Regex
  /-- Capturing group number `idx`. -/
  | group (idx : Nat) (r : Regex) : Regex

/-- Matcher state: runes consumed so far, runes left, and the groups captured so far
(latest first). -/
structure MState where
  pos : Nat
  rest : List Char
  caps : List (Nat × List Char)

/-- Membership of a rune in a list of inclusive ranges. -/
def inRanges (c : Char) (ranges : List (Char × Char)) : Bool :=
  ranges.any (fun r => decide (r.1.toNat ≤ c.toNat) && decide (c.toNat ≤ r.2.toNat))

/-- One rune is consumed when it satisfies `p`. -/
def stepRune (p : Char → Bool) (s : MState) (k : MState → Option MState) : Option MState :=
  match s.rest with
  | [] => none
  | c :: cs => if p c then k { s with pos := s.pos + 1, rest := cs } else none

/-- The repetition loop. `body` matches one iteration; `cnt` iterations are done. Beyond the
minimum count an iteration has to consume input, so `fuel` = remaining length + `min`
iterations always suffice. -/
def repLoop (body : MState → (MState → Option MState) → Option MState)
    (min : Nat) (max : Option Nat) (greedy : Bool) :
    Nat → Nat → MState → (MState → Option MState) → Option MState
  | 0, cnt, s, k => if min ≤ cnt then k s else none
  | fuel + 1, cnt, s, k =>
    let stop : Unit → Option MState := fun _ => if min ≤ cnt then k s else none
    let more : Unit → Option MState := fun _ =>
      if (match max with | none => true | some m => decide (cnt < m)) then
        body s (fun s1 =>
          if cnt < min ∨ s1.rest.length < s.rest.length then
            repLoop body min max greedy fuel (cnt + 1) s1 k
          else none)
      else none
    if greedy then
      match more () with
      | some r => some r
      | none => stop ()
    else
      match stop () with
      | some r => some r
      | none => more ()

/-- Backtracking matcher in continuation-passing style: `r.run s k` is the first success, in
priority order, of matching `r` from `s` and then continuing with `k`. -/
def Regex.run : Regex → MState → (MState → Option MState) → Option MState
  | .empty, s, k => k s
  | .any, s, k => stepRune (fun c => decide (c ≠ '\n')) s k
  | .cls neg ranges, s, k => stepRune (fun c => inRanges c ranges != neg) s k
  | .bol, s, k => if s.pos = 0 then k s else none
  | .eol, s, k => if s.rest.isEmpty then k s else none
  | .cat a b, s, k => a.run s (fun s1 => b.run s1 k)
  | .alt a b, s, k =>
    match a.run s k with
    | some r => some r
    | none => b.run s k
  | .rep min max greedy r, s, k => repLoop r.run min max greedy (s.rest.length + min) 0 s k
  | .group idx r, s, k =>
    r.run s (fun s1 => k { s1 with caps := (idx, s.rest.take (s1.pos - s.pos)) :: s1.caps })

/-- A compiled expression: its syntax and the names of its groups (`SubexpNames`: entry 0 is
the whole match, entry `i` the name of group `i`, empty for an unnamed group). -/
structure Regexp where
  re : Regex
  subexpNames : List (List Char)

/-- Text captured by group `i`, empty when the group took no part in the match. -/
def capture (caps : List (Nat × List Char)) (i : Nat) : List Char :=
  match caps.find? (fun p => p.1 == i) with
  | some p => p.2
  | none => []

/-- Leftmost search: the match starting at the earliest position wins. `pos` runes of the
text precede `rest`. -/
def searchFrom (re : Regex) : Nat → List Char → Option MState
  | pos, [] => (Regex.group 0 re).run ⟨pos, [], []⟩ some
  | pos, c :: cs =>
    match (Regex.group 0 re).run ⟨pos, c :: cs, []⟩ some with
    | some r => some r
    | none => searchFrom re (pos + 1) cs

/-- `FindStringSubmatch`: the leftmost match of the expression in `s`, as the list of the texts
of the whole match and of each group; `none` when there is no match. This is element 0 of
`FindAllStringSubmatch(s, -1)`, which is non-empty exactly when a match exists. -/
def Regexp.FindStringSubmatch (rx : Regexp) (s : List Char) : Option (List (List Char)) :=
  match searchFrom rx.re 0 s with
  | none => none
  | some st => some ((List.range rx.subexpNames.length).map (capture st.caps))

/-! ### Building blocks for writing the pattern tables -/

/-- A class of single runes and ranges. -/
def chars (l : List Char) : List (Char × Char) := l.map (fun c => (c, c))

/-- The class `[0-9]`. -/
def digit : Regex := .cls false [('0', '9')]

/-- Concatenation of a sequence of expressions. -/
def seq : List Regex → Regex
  | [] => .empty
  | [r] => r
  | r :: rs => .cat r (seq rs)

/-- The expression `r*`. -/
def star (r : Regex) : Regex := .rep 0 none true r
/-- The expression `r*?`. -/
def lazyStar (r : Regex) : Regex := .rep 0 none false r
/-- The expression `r+`. -/
def plus (r : Regex) : Regex := .rep 1 none true r
/-- The expression `r?`. -/
def opt (r : Regex) : Regex := .rep 0 (some 1) true r
/-- The expression `r{m,n}`. -/
def times (m n : Nat) (r : Regex) : Regex := .rep m (some n) true r

/-- A one-rune class. -/
def lit (c : Char) : Regex := .cls false [(c, c)]

/-! ## Standard library calls used by the matcher -/

/-- Go error values that occur in the package. A `*strconv.NumError` is represented by its
`Err` field (`ErrSyntax` or `ErrRange`); the four sentinels `ErrNotFound`, `ErrMissingShow`,
`ErrInternalServer` and `ErrNotImplemented` are package variables declared outside the given
sources; `other` stands for any further error value a collaborator may return. -/
inductive Error where
  | errorsNew (msg : List Char) : Error
  | ErrSyntax : Error
  | ErrRange : Error
  | ErrNotFound : Error
  | ErrMissingShow : Error
  | ErrInternalServer : Error
  | ErrNotImplemented : Error
  | other (code : Nat) : Error
  deriving DecidableEq, Repr

/-- A run of runes with a lower-case form: the runes `lo`, `lo + stride`, ... up to `hi`;
the rune `lo + k` has the lower-case form `target + k`. -/
structure CaseRange where
  lo : Nat
  hi : Nat
  stride : Nat
  target : Nat

/-- The simple lower-case mapping of the Unicode Character Database (version 14.0) outside
ASCII, which is what the table `unicode.CaseRanges` of Go holds for the lower case: every rune
absent from these runs is its own lower-case form. -/
def unicode.lowerRanges : List CaseRange :=
  [
   CaseRange.mk 192 214 1 224, CaseRange.mk 216 222 1 248, CaseRange.mk 256 302 2 257,
   CaseRange.mk 304 304 1 105, CaseRange.mk 306 310 2 307, CaseRange.mk 313 327 2 314,
   CaseRange.mk 330 374 2 331, CaseRange.mk 376 376 1 255, CaseRange.mk 377 381 2 378,
   CaseRange.mk 385 385 1 595, CaseRange.mk 386 388 2 387, CaseRange.mk 390 390 1 596,
   CaseRange.mk 391 391 1 392, CaseRange.mk 393 394 1 598, CaseRange.mk 395 395 1 396,
   CaseRange.mk 398 398 1 477, CaseRange.mk 399 399 1 601, CaseRange.mk 400 400 1 603,
   CaseRange.mk 401 401 1 402, CaseRange.mk 403 403 1 608, CaseRange.mk 404 404 1 611,
   CaseRange.mk 406 406 1 617, CaseRange.mk 407 407 1 616, CaseRange.mk 408 408 1 409,
   CaseRange.mk 412 412 1 623, CaseRange.mk 413 413 1 626, CaseRange.mk 415 415 1 629,
   CaseRange.mk 416 420 2 417, CaseRange.mk 422 422 1 640, CaseRange.mk 423 423 1 424,
   CaseRange.mk 425 425 1 643, CaseRange.mk 428 428 1 429, CaseRange.mk 430 430 1 648,
   CaseRange.mk 431 431 1 432, CaseRange.mk 433 434 1 650, CaseRange.mk 435 437 2 436,
   CaseRange.mk 439 439 1 658, CaseRange.mk 440 440 1 441, CaseRange.mk 444 444 1 445,
   CaseRange.mk 452 452 1 454, CaseRange.mk 453 453 1 454, CaseRange.mk 455 455 1 457,
   CaseRange.mk 456 456 1 457, CaseRange.mk 458 458 1 460, CaseRange.mk 459 475 2 460,
   CaseRange.mk 478 494 2 479, CaseRange.mk 497 497 1 499, CaseRange.mk 498 500 2 499,
   CaseRange.mk 502 502 1 405, CaseRange.mk 503 503 1 447, CaseRange.mk 504 542 2 505,
   CaseRange.mk 544 544 1 414, CaseRange.mk 546 562 2 547, CaseRange.mk 570 570 1 11365,
   CaseRange.mk 571 571 1 572, CaseRange.mk 573 573 1 410, CaseRange.mk 574 574 1 11366,
   CaseRange.mk 577 577 1 578, CaseRange.mk 579 579 1 384, CaseRange.mk 580 580 1 649,
   CaseRange.mk 581 581 1 652, CaseRange.mk 582 590 2 583, CaseRange.mk 880 882 2 881,
   CaseRange.mk 886 886 1 887, CaseRange.mk 895 895 1 1011, CaseRange.mk 902 902 1 940,
   CaseRange.mk 904 906 1 941, CaseRange.mk 908 908 1 972, CaseRange.mk 910 911 1 973,
   CaseRange.mk 913 929 1 945, CaseRange.mk 931 939 1 963, CaseRange.mk 975 975 1 983,
   CaseRange.mk 984 1006 2 985, CaseRange.mk 1012 1012 1 952, CaseRange.mk 1015 1015 1 1016,
   CaseRange.mk 1017 1017 1 1010, CaseRange.mk 1018 1018 1 1019, CaseRange.mk 1021 1023 1 891,
   CaseRange.mk 1024 1039 1 1104, CaseRange.mk 1040 1071 1 1072, CaseRange.mk 1120 1152 2 1121,
   CaseRange.mk 1162 1214 2 1163, CaseRange.mk 1216 1216 1 1231, CaseRange.mk 1217 1229 2 1218,
   CaseRange.mk 1232 1326 2 1233, CaseRange.mk 1329 1366 1 1377, CaseRange.mk 4256 4293 1 11520,
   CaseRange.mk 4295 4295 1 11559, CaseRange.mk 4301 4301 1 11565, CaseRange.mk 5024 5103 1 43888,
   CaseRange.mk 5104 5109 1 5112, CaseRange.mk 7312 7354 1 4304, CaseRange.mk 7357 7359 1 4349,
   CaseRange.mk 7680 7828 2 7681, CaseRange.mk 7838 7838 1 223, CaseRange.mk 7840 7934 2 7841,
   CaseRange.mk 7944 7951 1 7936, CaseRange.mk 7960 7965 1 7952, CaseRange.mk 7976 7983 1 7968,
   CaseRange.mk 7992 7999 1 7984, CaseRange.mk 8008 8013 1 8000, CaseRange.mk 8025 8031 2 8017,
   CaseRange.mk 8040 8047 1 8032, CaseRange.mk 8072 8079 1 8064, CaseRange.mk 8088 8095 1 8080,
   CaseRange.mk 8104 8111 1 8096, CaseRange.mk 8120 8121 1 8112, CaseRange.mk 8122 8123 1 8048,
   CaseRange.mk 8124 8124 1 8115, CaseRange.mk 8136 8139 1 8050, CaseRange.mk 8140 8140 1 8131,
   CaseRange.mk 8152 8153 1 8144, CaseRange.mk 8154 8155 1 8054, CaseRange.mk 8168 8169 1 8160,
   CaseRange.mk 8170 8171 1 8058, CaseRange.mk 8172 8172 1 8165, CaseRange.mk 8184 8185 1 8056,
   CaseRange.mk 8186 8187 1 8060, CaseRange.mk 8188 8188 1 8179, CaseRange.mk 8486 8486 1 969,
   CaseRange.mk 8490 8490 1 107, CaseRange.mk 8491 8491 1 229, CaseRange.mk 8498 8498 1 8526,
   CaseRange.mk 8544 8559 1 8560, CaseRange.mk 8579 8579 1 8580, CaseRange.mk 9398 9423 1 9424,
   CaseRange.mk 11264 11311 1 11312, CaseRange.mk 11360 11360 1 11361, CaseRange.mk 11362 11362 1 619,
   CaseRange.mk 11363 11363 1 7549, CaseRange.mk 11364 11364 1 637, CaseRange.mk 11367 11371 2 11368,
   CaseRange.mk 11373 11373 1 593, CaseRange.mk 11374 11374 1 625, CaseRange.mk 11375 11375 1 592,
   CaseRange.mk 11376 11376 1 594, CaseRange.mk 11378 11378 1 11379, CaseRange.mk 11381 11381 1 11382,
   CaseRange.mk 11390 11391 1 575, CaseRange.mk 11392 11490 2 11393, CaseRange.mk 11499 11501 2 11500,
   CaseRange.mk 11506 11506 1 11507, CaseRange.mk 42560 42604 2 42561, CaseRange.mk 42624 42650 2 42625,
   CaseRange.mk 42786 42798 2 42787, CaseRange.mk 42802 42862 2 42803, CaseRange.mk 42873 42875 2 42874,
   CaseRange.mk 42877 42877 1 7545, CaseRange.mk 42878 42886 2 42879, CaseRange.mk 42891 42891 1 42892,
   CaseRange.mk 42893 42893 1 613, CaseRange.mk 42896 42898 2 42897, CaseRange.mk 42902 42920 2 42903,
   CaseRange.mk 42922 42922 1 614, CaseRange.mk 42923 42923 1 604, CaseRange.mk 42924 42924 1 609,
   CaseRange.mk 42925 42925 1 620, CaseRange.mk 42926 42926 1 618, CaseRange.mk 42928 42928 1 670,
   CaseRange.mk 42929 42929 1 647, CaseRange.mk 42930 42930 1 669, CaseRange.mk 42931 42931 1 43859,
   CaseRange.mk 42932 42946 2 42933, CaseRange.mk 42948 42948 1 42900, CaseRange.mk 42949 42949 1 642,
   CaseRange.mk 42950 42950 1 7566, CaseRange.mk 42951 42953 2 42952, CaseRange.mk 42960 42960 1 42961,
   CaseRange.mk 42966 42968 2 42967, CaseRange.mk 42997 42997 1 42998, CaseRange.mk 65313 65338 1 65345,
   CaseRange.mk 66560 66599 1 66600, CaseRange.mk 66736 66771 1 66776, CaseRange.mk 66928 66938 1 66967,
   CaseRange.mk 66940 66954 1 66979, CaseRange.mk 66956 66962 1 66995, CaseRange.mk 66964 66965 1 67003,
   CaseRange.mk 68736 68786 1 68800, CaseRange.mk 71840 71871 1 71872, CaseRange.mk 93760 93791 1 93792,
   CaseRange.mk 125184 125217 1 125218]

/-- Lookup of a code point in a table of runs: its lower-case form when some run holds it. -/
def unicode.lookupLower (n : Nat) : List CaseRange → Option Nat
  | [] => none
  | e :: rest =>
    if e.lo ≤ n ∧ n ≤ e.hi ∧ (n - e.lo) % e.stride = 0 then some (e.target + (n - e.lo))
    else unicode.lookupLower n rest

/-- `unicode.ToLower(r)`: within ASCII `A`-`Z` are mapped to `a`-`z` and every other rune to
itself; outside ASCII the rune is mapped as the table of runs says. -/
def unicode.ToLower (c : Char) : Char :=
  if 'A'.toNat ≤ c.toNat ∧ c.toNat ≤ 'Z'.toNat then Char.ofNat (c.toNat + 32)
  else if c.toNat < 128 then c
  else
    match unicode.lookupLower c.toNat unicode.lowerRanges with
    | some n => Char.ofNat n
    | none => c

/-- `strings.ToLower(s)`: every rune mapped to lower case. -/
def strings.ToLower (s : List Char) : List Char := s.map unicode.ToLower

/-- `strings.Contains(s, substr)`: `substr` occurs within `s`. -/
def strings.Contains : List Char → List Char → Bool
  | [], substr => substr.isEmpty
  | c :: cs, substr => substr.isPrefixOf (c :: cs) || strings.Contains cs substr

/-- Scan of `strings.Replace(s, old, new, -1)` for a non-empty `old`: `skip` runes of an
occurrence found earlier are still to be dropped. -/
def strings.replaceScan (old new : List Char) : Nat → List Char → List Char
  | _, [] => []
  | skip + 1, _ :: cs => strings.replaceScan old new skip cs
  | 0, c :: cs =>
    if old.isPrefixOf (c :: cs) then new ++ strings.replaceScan old new (old.length - 1) cs
    else c :: strings.replaceScan old new 0 cs

/-- `strings.Replace(s, old, new, -1)`: every non-overlapping occurrence of `old`, from the
left, replaced by `new`; for an empty `old`, `new` is inserted before every rune and at the
end. -/
def strings.Replace (s old new : List Char) : List Char :=
  if old = new then s
  else if old.isEmpty then new ++ s.flatMap (fun c => c :: new)
  else strings.replaceScan old new 0 s

/-- Split of a list at its last element satisfying `sep`: the part up to and including that
element, and the part after it. -/
def splitAfterLast (sep : Char → Bool) : List Char → List Char × List Char
  | [] => ([], [])
  | c :: cs =>
    let r := splitAfterLast sep cs
    if r.1.isEmpty && !sep c then ([], c :: r.2) else (c :: r.1, r.2)

/-- `filepath.Split(path)` on Unix: the directory, up to and including the final slash, and the
file name after it; without a slash the directory is empty. -/
def filepath.Split (path : List Char) : List Char × List Char :=
  splitAfterLast (fun c => c == '/') path

/-- `strings.Split(s, sep)` for a one-rune separator: the pieces of `s` between separators. -/
def strings.splitOn (sep : Char) : List Char → List (List Char)
  | [] => [[]]
  | c :: cs =>
    if c = sep then [] :: strings.splitOn sep cs
    else
      match strings.splitOn sep cs with
      | [] => [[c]]
      | p :: ps => (c :: p) :: ps

/-- `filepath.SplitList(path)` on Unix: no element for the empty text, otherwise the pieces
between colons (the separator of PATH-style lists). -/
def filepath.SplitList (path : List Char) : List (List Char) :=
  if path.isEmpty then [] else strings.splitOn ':' path

/-- Value of a text of decimal digits; `none` when some rune is not an ASCII digit. -/
def strconv.digitsValue : List Char → Nat → Option Nat
  | [], acc => some acc
  | c :: cs, acc =>
    if '0'.toNat ≤ c.toNat ∧ c.toNat ≤ '9'.toNat then
      strconv.digitsValue cs (acc * 10 + (c.toNat - '0'.toNat))
    else none

/-- `strconv.Atoi(s)` with a 64-bit `int`: an optional sign and at least one decimal digit.
A malformed text gives `0` and `ErrSyntax`; a value that does not fit gives the nearest bound
(`2^63 - 1` or `-2^63`) and `ErrRange`. -/
def strconv.Atoi (s : List Char) : Int × Option Error :=
  let neg : Bool := s.head? == some '-'
  let body : List Char := if s.head? == some '-' || s.head? == some '+' then s.tail else s
  if body.isEmpty then (0, some Error.ErrSyntax)
  else
    match strconv.digitsValue body 0 with
    | none => (0, some Error.ErrSyntax)
    | some un =>
      if !neg && decide (2 ^ 63 ≤ un) then ((2 : Int) ^ 63 - 1, some Error.ErrRange)
      else if neg && decide (2 ^ 63 < un) then (-(2 : Int) ^ 63, some Error.ErrRange)
      else (if neg then -(un : Int) else (un : Int), none)

/-- `fmt.Sprintf("%d", n)`: the decimal rendering of an integer. -/
def fmt.SprintfD (n : Int) : List Char :=
  match n with
  | Int.ofNat k => Nat.toDigits 10 k
  | Int.negSucc k => '-' :: Nat.toDigits 10 (k + 1)

/-! ## The pattern tables (`matcher_simple.go`, lines 17-42) -/

/-- A group that declares no name. -/
def noName : List Char := []

/-- Pattern `(?P<show>.*?)[sS](?P<season>[0-9]+)[\._ ]*[eE](?P<ep>[0-9]+)`
`([- ]?[Ee+](?P<secondEp>[0-9]+))?` (the `S03E04-E05` style). -/
def rxSxxEyy : Regexp where
  re := seq [
    .group 1 (lazyStar .any),
    .cls false (chars ['s', 'S']),
    .group 2 (plus digit),
    star (.cls false (chars ['.', '_', ' '])),
    .cls false (chars ['e', 'E']),
    .group 3 (plus digit),
    opt (.group 4 (seq [
      opt (.cls false (chars ['-', ' '])),
      .cls false (chars ['E', 'e', '+']),
      .group 5 (plus digit)]))]
  subexpNames := [noName, "show".toList, "season".toList, "ep".toList, noName,
    "secondEp".toList]

/-- Pattern `(?P<show>.*?)[sS](?P<season>[0-9]{2})[\._\- ]+(?P<ep>[0-9]+)`
(the `S03-03` style). -/
def rxSxxSepEyy : Regexp where
  re := seq [
    .group 1 (lazyStar .any),
    .cls false (chars ['s', 'S']),
    .group 2 (times 2 2 digit),
    plus (.cls false (chars ['.', '_', '-', ' '])),
    .group 3 (plus digit)]
  subexpNames := [noName, "show".toList, "season".toList, "ep".toList]

/-- Pattern `(?P<show>.*?)([^0-9]|^)(?P<season>[0-9]{1,2})[Xx](?P<ep>[0-9]+)`
`(-[0-9]+[Xx](?P<secondEp>[0-9]+))?` (the `3x03` style). -/
def rxNxNN : Regexp where
  re := seq [
    .group 1 (lazyStar .any),
    .group 2 (.alt (.cls true [('0', '9')]) .bol),
    .group 3 (times 1 2 digit),
    .cls false (chars ['X', 'x']),
    .group 4 (plus digit),
    opt (.group 5 (seq [
      lit '-',
      plus digit,
      .cls false (chars ['X', 'x']),
      .group 6 (plus digit)]))]
  subexpNames := [noName, "show".toList, noName, "season".toList, "ep".toList, noName,
    "secondEp".toList]

/-- Pattern `(.*?)[^0-9a-z](?P<season>[0-9]{1,2})(?P<ep>[0-9]{2})`
`([\.\-][0-9]+(?P<secondEp>[0-9]{2})([ \-_\.]|$)[\.\-]?)?([^0-9a-z%]|$)`
(the `.602.` style). -/
def rxNNN : Regexp where
  re := seq [
    .group 1 (lazyStar .any),
    .cls true [('0', '9'), ('a', 'z')],
    .group 2 (times 1 2 digit),
    .group 3 (times 2 2 digit),
    opt (.group 4 (seq [
      .cls false (chars ['.', '-']),
      plus digit,
      .group 5 (times 2 2 digit),
      .group 6 (.alt (.cls false (chars [' ', '-', '_', '.'])) .eol),
      opt (.cls false (chars ['.', '-']))])),
    .group 7 (.alt (.cls true [('0', '9'), ('a', 'z'), ('%', '%')]) .eol)]
  subexpNames := [noName, noName, "season".toList, "ep".toList, noName, "secondEp".toList,
    noName, noName]

/-- The embedded patterns, in their declared order. -/
def matcherEpisodeRegexs : List Regexp := [rxSxxEyy, rxSxxSepEyy, rxNxNN, rxNNN]

/-- Tail shared by the two standalone patterns:
`([0-9]+)(-[0-9]+[Xx]([0-9]+))?( - (.*))?`, groups 5 to 9. -/
def standaloneTail : List Regex := [
  .group 5 (plus digit),
  opt (.group 6 (seq [
    lit '-',
    plus digit,
    .cls false (chars ['X', 'x']),
    .group 7 (plus digit)])),
  opt (.group 8 (seq [lit ' ', lit '-', lit ' ', .group 9 (star .any)]))]

/-- Head shared by the two standalone patterns: `(.*?)( \(([0-9]+)\))?`, groups 1 to 3. -/
def standaloneHead : List Regex := [
  .group 1 (lazyStar .any),
  opt (.group 2 (seq [lit ' ', lit '(', .group 3 (plus digit), lit ')']))]

/-- The standalone patterns
`(.*?)( \(([0-9]+)\))? - ([0-9]+)+x([0-9]+)(-[0-9]+[Xx]([0-9]+))?( - (.*))?` and
`(.*?)( \(([0-9]+)\))?[Ss]([0-9]+)+[Ee]([0-9]+)(-[0-9]+[Xx]([0-9]+))?( - (.*))?`;
none of their groups is named. -/
def matcherStandaloneEpisodeRegexs : List Regexp := [
  { re := seq (standaloneHead ++
      [lit ' ', lit '-', lit ' ', plus (.group 4 (plus digit)), lit 'x'] ++ standaloneTail),
    subexpNames := List.replicate 10 noName },
  { re := seq (standaloneHead ++
      [.cls false (chars ['S', 's']), plus (.group 4 (plus digit)),
        .cls false (chars ['E', 'e'])] ++ standaloneTail),
    subexpNames := List.replicate 10 noName }]

/-- The season-folder pattern `.*?(?P<season>[0-9]+)$`. -/
def matcherSeasonRegexs : List Regexp := [
  { re := seq [lazyStar .any, .group 1 (plus digit), .eol],
    subexpNames := [noName, "season".toList] }]

/-- The class `[\. -_]`: a dot, and the range from the space to the underscore. -/
def clsDotSpaceToUnderscore : Regex := .cls false [('.', '.'), (' ', '_')]

/-- The class `[ \.\-_]`. -/
def clsSeparator : Regex := .cls false (chars [' ', '.', '-', '_'])

/-- The class `[^0-9c-uw-z%]`. -/
def clsNotDigitLetter : Regex := .cls true [('0', '9'), ('c', 'u'), ('w', 'z'), ('%', '%')]

/-- The episode-only patterns, in their declared order:
`(?P<ep>[0-9]{1,3})[\. -_]of[\. -_]+[0-9]{1,3}`, `^(?P<ep>[0-9]{1,3})[^0-9]`,
`e[a-z]*[ \.\-_]*(?P<ep>[0-9]{2,3})([^0-9c-uw-z%]|$)`,
`.*?[ \.\-_](?P<ep>[0-9]{2,3})[^0-9c-uw-z%]+`, `.*?[ \.\-_](?P<ep>[0-9]{2,3})$` and
`.*?[^0-9x](?P<ep>[0-9]{2,3})$`. -/
def matcherJustEpisodeRegexs : List Regexp := [
  { re := seq [.group 1 (times 1 3 digit), clsDotSpaceToUnderscore, lit 'o', lit 'f',
      plus clsDotSpaceToUnderscore, times 1 3 digit],
    subexpNames := [noName, "ep".toList] },
  { re := seq [.bol, .group 1 (times 1 3 digit), .cls true [('0', '9')]],
    subexpNames := [noName, "ep".toList] },
  { re := seq [lit 'e', star (.cls false [('a', 'z')]), star clsSeparator,
      .group 1 (times 2 3 digit), .group 2 (.alt clsNotDigitLetter .eol)],
    subexpNames := [noName, "ep".toList, noName] },
  { re := seq [lazyStar .any, clsSeparator, .group 1 (times 2 3 digit),
      plus clsNotDigitLetter],
    subexpNames := [noName, "ep".toList] },
  { re := seq [lazyStar .any, clsSeparator, .group 1 (times 2 3 digit), .eol],
    subexpNames := [noName, "ep".toList] },
  { re := seq [lazyStar .any, .cls true [('0', '9'), ('x', 'x')],
      .group 1 (times 2 3 digit), .eol],
    subexpNames := [noName, "ep".toList] }]

/-! ## The matcher (`matcher_simple.go`, lines 57-259) -/

/-- The raw tokens of a match; an empty text is an unset field. -/
structure matchedEpisode where
  Show : List Char := []
  Season : List Char := []
  Episode : List Char := []
  SecondEpisode : List Char := []
  deriving DecidableEq, Repr

/-- One step of the loop of `parseMatches`: the group named `n`, with text `v`, is stored in
the field of that name. -/
def assignField (me : matchedEpisode) (n v : List Char) : matchedEpisode :=
  if n = "show".toList then { me with Show := v }
  else if n = "ep".toList then { me with Episode := v }
  else if n = "secondEp".toList then { me with SecondEpisode := v }
  else if n = "season".toList then { me with Season := v }
  else me

/-- `parseMatches(rx, ms)`: the named groups of the first match `ms[0]` (here `ms0`), stored by
name. -/
def parseMatches (rx : Regexp) (ms0 : List (List Char)) : matchedEpisode :=
  (rx.subexpNames.zip ms0).foldl (fun me p => assignField me p.1 p.2) {}

/-- The loop of `match` over a list of expressions: the first expression with a match
decides. -/
def matchLoop (fn : List Char) : List Regexp → Option matchedEpisode
  | [] => none
  | rx :: rxs =>
    match rx.FindStringSubmatch fn with
    | some ms0 => some (parseMatches rx ms0)
    | none => matchLoop fn rxs

/-- `m.match(rxs, fn)`: the loop ranges over `matcherEpisodeRegexs`, whatever `rxs` is. -/
def «match» (_rxs : List Regexp) (fn : List Char) : Option matchedEpisode :=
  matchLoop fn matcherEpisodeRegexs

/-- Modelled from the spec: the record `UserFile` (FileMetadata) is declared outside the given
sources; its fields are those the matcher writes. An empty text is an unset field. -/
structure UserFile where
  Name : List Char := []
  Path : List Char := []
  VideoCodec : List Char := []
  AudioCodec : List Char := []
  Source : List Char := []
  Resolution : List Char := []
  ReleaseGroup : List Char := []
  deriving DecidableEq, Repr

/-- Modelled from the spec: the record `UserEpisode` (ResolvedEpisode) is declared outside the
given sources; its fields are those the matcher writes. -/
structure UserEpisode where
  ShowID : List Char
  Season : Int
  Number : Int
  Files : List UserFile
  deriving DecidableEq, Repr

/-- Modelled from the spec: the identifiers of a `Show`, of which the matcher reads
`IDs.Trakt`, the canonical numeric identifier. -/
structure ShowIDs where
  Trakt : Int
  deriving DecidableEq, Repr

/-- Modelled from the spec: the record `Show` is declared outside the given sources; it exposes
a canonical numeric identifier and a display title. -/
structure Show where
  IDs : ShowIDs
  Title : List Char
  deriving DecidableEq, Repr

/-- Modelled from the spec: the interface `ShowLibrary` is declared outside the given sources;
the matcher calls its title search only, which answers with the ranked candidates and an
error. -/
structure ShowLibrary where
  QueryShowsByTitle : List Char → List Show × Option Error

/-- Modelled from the spec: the dictionaries `fileVideoCodecs`, `fileAudioCodecs`,
`fileSources`, `fileResolutions` and `fileReleaseGroups` are package variables declared outside
the given sources: ordered lists of known tokens. -/
structure Dictionaries where
  fileVideoCodecs : List (List Char)
  fileAudioCodecs : List (List Char)
  fileSources : List (List Char)
  fileResolutions : List (List Char)
  fileReleaseGroups : List (List Char)

/-- The matcher and its show library. -/
structure SimpleMatch where
  globalLibrary : ShowLibrary

/-- A dictionary loop of `parseMetadata`: the first token `m` for which `hit m` holds, the
empty text when there is none. -/
def firstToken (hit : List Char → Bool) : List (List Char) → List Char
  | [] => []
  | m :: ms => if hit m then m else firstToken hit ms

/-- `m.parseMetadata(filename)`: the codec, source and resolution tokens are looked up in the
lower-cased name, the release group, after a hyphen, in the name as given. -/
def SimpleMatch.parseMetadata (d : Dictionaries) (filename : List Char) :
    UserFile × Option Error :=
  let lfn := strings.ToLower filename
  ({ Name := filename
     VideoCodec := firstToken (fun m => strings.Contains lfn m) d.fileVideoCodecs
     AudioCodec := firstToken (fun m => strings.Contains lfn m) d.fileAudioCodecs
     Source := firstToken (fun m => strings.Contains lfn m) d.fileSources
     Resolution := firstToken (fun m => strings.Contains lfn m) d.fileResolutions
     ReleaseGroup :=
       firstToken (fun m => strings.Contains filename ('-' :: m)) d.fileReleaseGroups },
   none)

/-- The three guarded assignments repeated in `Match`: the show, season and episode of `mer`
are stored in `me` where `mer` has one and `me` has none yet. -/
def fillEmpty (me mer : matchedEpisode) : matchedEpisode :=
  let me := if mer.Show ≠ [] ∧ me.Show = [] then { me with Show := mer.Show } else me
  let me := if mer.Season ≠ [] ∧ me.Season = [] then { me with Season := mer.Season } else me
  if mer.Episode ≠ [] ∧ me.Episode = [] then { me with Episode := mer.Episode } else me

/-- The guarded assignment of the season alone. -/
def fillSeason (me mer : matchedEpisode) : matchedEpisode :=
  if mer.Season ≠ [] ∧ me.Season = [] then { me with Season := mer.Season } else me

/-- Lines 77-82: the standalone patterns are handed to `match` with the lower-cased file name;
a result overwrites the four fields. -/
def passStandalone (fn : List Char) (me : matchedEpisode) : matchedEpisode :=
  match «match» matcherStandaloneEpisodeRegexs fn with
  | some mer =>
    { me with Show := mer.Show, Season := mer.Season, Episode := mer.Episode,
              SecondEpisode := mer.SecondEpisode }
  | none => me

/-- Lines 86-96, 110-121 and 127-138: the embedded patterns are handed to `match` with the
fragment `t`; a result fills the fields still empty. -/
def passEmbedded (t : List Char) (me : matchedEpisode) : matchedEpisode :=
  match «match» matcherEpisodeRegexs t with
  | some mer => fillEmpty me mer
  | none => me

/-- Lines 102-107: the season-folder patterns are handed to `match` with the fragment `pd`; a
result fills the season when it is still empty. -/
def passSeason (pd : List Char) (me : matchedEpisode) : matchedEpisode :=
  match «match» matcherSeasonRegexs pd with
  | some mer => fillSeason me mer
  | none => me

/-- Lines 99-122: with at least one element in `ds`, the last one is tried as a season folder
and then for the three fields. -/
def passParent (ds : List (List Char)) (me : matchedEpisode) : matchedEpisode :=
  if ds.length > 0 then
    let pd := ds.getD (ds.length - 1) []
    passEmbedded pd (passSeason pd me)
  else me

/-- Lines 124-139: with at least two elements in `ds`, the last but one is tried for the three
fields. -/
def passGrandparent (ds : List (List Char)) (me : matchedEpisode) : matchedEpisode :=
  if ds.length > 1 then
    let pd := ds.getD (ds.length - 2) []
    passEmbedded pd me
  else me

/-- The accumulator `me` of `Match` when line 141 is reached (lines 70-139). -/
def SimpleMatch.matchFields (fp : List Char) : matchedEpisode :=
  let ofn := (filepath.Split fp).2
  let fn := strings.ToLower ofn
  let ds := filepath.SplitList (strings.ToLower ofn)
  let me : matchedEpisode := {}
  let me := passStandalone fn me
  let me := passEmbedded fn me
  let me := passParent ds me
  passGrandparent ds me

/-- `m.Match(fp)`: the episodes and the error returned (lines 67-172). -/
def SimpleMatch.Match (d : Dictionaries) (m : SimpleMatch) (fp : List Char) :
    List UserEpisode × Option Error :=
  let ods := (filepath.Split fp).1
  let ofn := (filepath.Split fp).2
  let me := SimpleMatch.matchFields fp
  if me.Show = [] then ([], none)
  else
    let uf := (SimpleMatch.parseMetadata d ofn).1
    let uf := { uf with Name := ofn, Path := ods }
    let clsh := strings.Replace me.Show ['.'] [' ']
    let r := m.globalLibrary.QueryShowsByTitle clsh
    match r.2 with
    | some err => ([], some err)
    | none =>
      match r.1 with
      | [] => ([], some (Error.errorsNew "Not enough shows".toList))
      | sh0 :: _ =>
        let epn := (strconv.Atoi me.Episode).1
        let sen := (strconv.Atoi me.Season).1
        ([{ ShowID := fmt.SprintfD sh0.IDs.Trakt, Season := sen, Number := epn,
            Files := [uf] }], none)

/-! ## Concrete inputs used in the scenarios -/

/-- The path of the scenario of the specification. -/
def wirePath : List Char := "/tv/The.Wire/The.Wire.S03E04.720p.HDTV.x264-LOL.mkv".toList

/-- A sample of dictionaries. -/
def sampleDictionaries : Dictionaries where
  fileVideoCodecs := ["x264".toList, "xvid".toList]
  fileAudioCodecs := ["aac".toList, "ac3".toList]
  fileSources := ["hdtv".toList, "bluray".toList]
  fileResolutions := ["720p".toList, "1080p".toList]
  fileReleaseGroups := ["LOL".toList, "DIMENSION".toList]

/-- The candidate show with identifier 2993. -/
def theWire : Show := { IDs := { Trakt := 2993 }, Title := "The Wire".toList }

/-- A library that knows the single title `title`, for which it answers `theWire`, and finds no
candidate for any other title. -/
def singleTitleLibrary (title : List Char) : ShowLibrary where
  QueryShowsByTitle := fun t => if t = title then ([theWire], none) else ([], none)

/-- A library that answers every title with the same ranking. -/
def constantLibrary (shs : List Show) : ShowLibrary where
  QueryShowsByTitle := fun _ => (shs, none)

/-- A library whose search always fails. -/
def failingLibrary (e : Error) : ShowLibrary where
  QueryShowsByTitle := fun _ => ([], some e)

/-- A second candidate, ranked after `theWire`. -/
def theWireUK : Show := { IDs := { Trakt := 41 }, Title := "The Wire (UK)".toList }

/-- A file name whose season token has twenty digits. -/
def longSeasonPath : List Char := "show.s99999999999999999999e01.mkv".toList

/-- A path whose parent directory carries the show, the season and the episode. -/
def wireDirPath : List Char := "/tv/The.Wire.S03E04/episode.mkv".toList

/-- The fields set in `a` are the same in `b`. -/
def Keeps (a b : matchedEpisode) : Prop :=
  (a.Show ≠ [] → b.Show = a.Show) ∧ (a.Season ≠ [] → b.Season = a.Season) ∧
    (a.Episode ≠ [] → b.Episode = a.Episode)

/-- The first token of the dictionary `dict`, in its declared order, that occurs within
`text` is `field`; `field` is empty when no token of `dict` occurs within `text`. -/
def IsFirstContained (text : List Char) (dict : List (List Char)) (field : List Char) : Prop :=
  (∃ before m after, dict = before ++ m :: after ∧ m <:+: text ∧
      (∀ x ∈ before, ¬ x <:+: text) ∧ field = m) ∨
    ((∀ x ∈ dict, ¬ x <:+: text) ∧ field = [])

/-- A dictionary with an upper-case token in each of the four case-insensitive categories. -/
def upperCaseDictionaries : Dictionaries where
  fileVideoCodecs := ["X264".toList]
  fileAudioCodecs := ["AAC".toList]
  fileSources := ["HDTV".toList]
  fileResolutions := ["720P".toList]
  fileReleaseGroups := ["LOL".toList]

/-- The episode with the path of its files erased. -/
def erasePath (ep : UserEpisode) : UserEpisode :=
  { ep with Files := ep.Files.map (fun uf => { uf with Path := [] }) }

/-- The file name of the scenario with its release group in lower case. -/
def wireNameLowerGroup : List Char := "The.Wire.S03E04.720p.HDTV.x264-lol.mkv".toList

/-- The file of the scenario under other directories. -/
def wirePathElsewhere : List Char :=
  "/mnt/Breaking.Bad.S01E01/Season 9/The.Wire.S03E04.720p.HDTV.x264-LOL.mkv".toList

/-- The file record built for the path of the scenario with the sample dictionaries. -/
def wireFile : UserFile where
  Name := "The.Wire.S03E04.720p.HDTV.x264-LOL.mkv".toList
  Path := "/tv/The.Wire/".toList
  VideoCodec := "x264".toList
  Source := "hdtv".toList
  Resolution := "720p".toList
  ReleaseGroup := "LOL".toList

/-- The accumulator of `Match` (lines 70-139) with the tables handed to `match` at lines 77,
86, 102, 110 and 127 taken as parameters: `standalone`, `embedded` and `season` stand for
`matcherStandaloneEpisodeRegexs`, `matcherEpisodeRegexs` and `matcherSeasonRegexs` at the
call sites. -/
def SimpleMatch.matchFieldsWith (standalone embedded season : List Regexp) (fp : List Char) :
    matchedEpisode :=
  let ofn := (filepath.Split fp).2
  let fn := strings.ToLower ofn
  let ds := filepath.SplitList (strings.ToLower ofn)
  let me : matchedEpisode := {}
  let me :=
    match «match» standalone fn with
    | some mer =>
      { me with Show := mer.Show, Season := mer.Season, Episode := mer.Episode,
                SecondEpisode := mer.SecondEpisode }
    | none => me
  let me :=
    match «match» embedded fn with
    | some mer => fillEmpty me mer
    | none => me
  let me :=
    if ds.length > 0 then
      let pd := ds.getD (ds.length - 1) []
      let me :=
        match «match» season pd with
        | some mer => fillSeason me mer
        | none => me
      match «match» embedded pd with
      | some mer => fillEmpty me mer
      | none => me
    else me
  if ds.length > 1 then
    let pd := ds.getD (ds.length - 2) []
    match «match» embedded pd with
    | some mer => fillEmpty me mer
    | none => me
  else me

/-- `Match` (lines 67-172) with the tables handed to `match` taken as parameters. -/
def SimpleMatch.MatchWith (standalone embedded season : List Regexp) (d : Dictionaries)
    (m : SimpleMatch) (fp : List Char) : List UserEpisode × Option Error :=
  let ods := (filepath.Split fp).1
  let ofn := (filepath.Split fp).2
  let me := SimpleMatch.matchFieldsWith standalone embedded season fp
  if me.Show = [] then ([], none)
  else
    let uf := (SimpleMatch.parseMetadata d ofn).1
    let uf := { uf with Name := ofn, Path := ods }
    let clsh := strings.Replace me.Show ['.'] [' ']
    let r := m.globalLibrary.QueryShowsByTitle clsh
    match r.2 with
    | some err => ([], some err)
    | none =>
      match r.1 with
      | [] => ([], some (Error.errorsNew "Not enough shows".toList))
      | sh0 :: _ =>
        let epn := (strconv.Atoi me.Episode).1
        let sen := (strconv.Atoi me.Season).1
        ([{ ShowID := fmt.SprintfD sh0.IDs.Trakt, Season := sen, Number := epn,
            Files := [uf] }], none)

/-- What a successful run of the matcher does: `Derives r c w c1` holds when `r` can consume
the word `w` and turn the captures `c` into `c1`. The relation forgets the conditions of the
anchors and of the dot, the bounds of repetitions and all priorities, so it holds for every run
(`run_sound`) and of more besides. -/
inductive Derives : Regex → List (Nat × List Char) → List Char → List (Nat × List Char) → Prop
  | empty (c : List (Nat × List Char)) : Derives .empty c [] c
  | any (c : List (Nat × List Char)) (ch : Char) : Derives .any c [ch] c
  | cls (c : List (Nat × List Char)) (neg : Bool) (ranges : List (Char × Char)) (ch : Char) :
    (inRanges ch ranges != neg) = true → Derives (.cls neg ranges) c [ch] c
  | bol (c : List (Nat × List Char)) : Derives .bol c [] c
  | eol (c : List (Nat × List Char)) : Derives .eol c [] c
  | cat {a b : Regex} {c c1 c2 : List (Nat × List Char)} {w1 w2 : List Char} :
    Derives a c w1 c1 → Derives b c1 w2 c2 → Derives (.cat a b) c (w1 ++ w2) c2
  | altLeft {a : Regex} (b : Regex) {c c1 : List (Nat × List Char)} {w : List Char} :
    Derives a c w c1 → Derives (.alt a b) c w c1
  | altRight (a : Regex) {b : Regex} {c c1 : List (Nat × List Char)} {w : List Char} :
    Derives b c w c1 → Derives (.alt a b) c w c1
  | repNil (min : Nat) (max : Option Nat) (greedy : Bool) (r : Regex)
    (c : List (Nat × List Char)) : Derives (.rep min max greedy r) c [] c
  | repCons {min : Nat} {max : Option Nat} {greedy : Bool} {r : Regex}
    {c c1 c2 : List (Nat × List Char)} {w1 w2 : List Char} :
    Derives r c w1 c1 → Derives (.rep min max greedy r) c1 w2 c2 →
    Derives (.rep min max greedy r) c (w1 ++ w2) c2
  | group (idx : Nat) {r : Regex} {c c1 : List (Nat × List Char)} {w : List Char} :
    Derives r c w c1 → Derives (.group idx r) c w ((idx, w) :: c1)

/-- The rune is an ASCII decimal digit. -/
def isDigitRune (c : Char) : Bool := decide ('0'.toNat ≤ c.toNat) && decide (c.toNat ≤ '9'.toNat)

/-- The text consists of ASCII decimal digits only (the empty text included). -/
def AllDigits (s : List Char) : Prop := ∀ c ∈ s, isDigitRune c = true

/-- Every range lies within `0`-`9`. -/
def digitRanges (ranges : List (Char × Char)) : Bool :=
  ranges.all (fun r => decide ('0'.toNat ≤ r.1.toNat) && decide (r.2.toNat ≤ '9'.toNat))

/-- Syntactic check: every rune the expression can consume is a decimal digit. -/
def Regex.digitsOnly : Regex → Bool
  | .empty => true
  | .any => false
  | .cls neg ranges => !neg && digitRanges ranges
  | .bol => true
  | .eol => true
  | .cat a b => a.digitsOnly && b.digitsOnly
  | .alt a b => a.digitsOnly && b.digitsOnly
  | .rep _ _ _ r => r.digitsOnly
  | .group _ r => r.digitsOnly

/-- Syntactic check: every group whose number is in `idxs` can consume decimal digits only. -/
def Regex.digitGroups (idxs : List Nat) : Regex → Bool
  | .empty => true
  | .any => true
  | .cls _ _ => true
  | .bol => true
  | .eol => true
  | .cat a b => a.digitGroups idxs && b.digitGroups idxs
  | .alt a b => a.digitGroups idxs && b.digitGroups idxs
  | .rep _ _ _ r => r.digitGroups idxs
  | .group idx r => (!idxs.contains idx || r.digitsOnly) && r.digitGroups idxs

/-- The captures of the groups whose number is in `idxs` consist of digits. -/
def DigitCaps (idxs : List Nat) (caps : List (Nat × List Char)) : Prop :=
  ∀ p ∈ caps, p.1 ∈ idxs → AllDigits p.2

/-- The season and the episode of the accumulator consist of digits. -/
def DigitFields (me : matchedEpisode) : Prop := AllDigits me.Season ∧ AllDigits me.Episode

/-! ## The Trakt library (`library_trakt.go`) -/

/-- The remote client `*trakt.Client` of the external package go-trakt, as far as the library
calls it: every call answers with a record (or a list of records) of the client's own types
and with the error of its result, `result.Err`. -/
structure TraktClient (TShow TSeason TEpisode : Type) where
  ShowsOne : Int → TShow × Option Error
  ShowsSearch : List Char → List TShow × Option Error
  SeasonsAll : Int → List TSeason × Option Error
  SeasonsByNumber : Int → Int → TSeason × Option Error
  EpisodesOneBySeasonByNumber : Int → Int → Int → TEpisode × Option Error
  EpisodesAllBySeason : Int → Int → List TEpisode × Option Error

/-- The conversion of a record of the client into a record of the package through
`encoding/json`: `Marshal` gives the bytes and an error, `Unmarshal` the record obtained by
decoding the bytes into a zero value (the error of `json.Unmarshal` is dropped by the code). -/
structure JSONCodec (T R : Type) where
  Marshal : T → List Nat × Option Error
  Unmarshal : List Nat → R

/-- The Trakt library: its client, and the conversions of the three kinds of records. The
records `Season` and `Episode` of the package are declared outside the given sources and are
type parameters here. -/
structure TraktLibrary (TShow TSeason TEpisode Season Episode : Type) where
  client : TraktClient TShow TSeason TEpisode
  showJSON : JSONCodec TShow Show
  seasonJSON : JSONCodec TSeason Season
  episodeJSON : JSONCodec TEpisode Episode

/-- The conversion loops of the library (lines 84-92, 167-175, 189-197): the records converted
so far are `acc`; a failing `Marshal` ends the loop without result. -/
def convertAll {T R : Type} (j : JSONCodec T R) : List T → List R → Option (List R)
  | [], acc => some acc
  | x :: xs, acc =>
    match (j.Marshal x).2 with
    | some _ => none
    | none => convertAll j xs (acc ++ [j.Unmarshal (j.Marshal x).1])

section Trakt

variable {TShow TSeason TEpisode Season Episode : Type}

/-- `l.GetShow(showID)` (lines 39-57). -/
def TraktLibrary.GetShow (l : TraktLibrary TShow TSeason TEpisode Season Episode)
    (showID : List Char) : Option Show × Option Error :=
  match (strconv.Atoi showID).2 with
  | some _ => (none, some Error.ErrInternalServer)
  | none =>
    let r := l.client.ShowsOne (strconv.Atoi showID).1
    match r.2 with
    | some _ => (none, some Error.ErrInternalServer)
    | none =>
      let data := l.showJSON.Marshal r.1
      match data.2 with
      | some _ => (none, some Error.ErrInternalServer)
      | none => (some (l.showJSON.Unmarshal data.1), none)

/-- `l.GetSeasonsByShow(showID)` (lines 72-94). -/
def TraktLibrary.GetSeasonsByShow (l : TraktLibrary TShow TSeason TEpisode Season Episode)
    (showID : List Char) : Option (List Season) × Option Error :=
  match (strconv.Atoi showID).2 with
  | some _ => (none, some Error.ErrInternalServer)
  | none =>
    let r := l.client.SeasonsAll (strconv.Atoi showID).1
    match r.2 with
    | some _ => (none, some Error.ErrInternalServer)
    | none =>
      match convertAll l.seasonJSON r.1 [] with
      | none => (none, some Error.ErrInternalServer)
      | some seasRs => (some seasRs, none)

/-- `l.GetSeasonByNumber(showID, seasonNumber)` (lines 99-117): after the lookup and the
conversion have succeeded, line 116 returns `nil, ErrNotImplemented`. -/
def TraktLibrary.GetSeasonByNumber (l : TraktLibrary TShow TSeason TEpisode Season Episode)
    (showID : List Char) (seasonNumber : Int) : Option Season × Option Error :=
  match (strconv.Atoi showID).2 with
  | some _ => (none, some Error.ErrInternalServer)
  | none =>
    let r := l.client.SeasonsByNumber (strconv.Atoi showID).1 seasonNumber
    match r.2 with
    | some _ => (none, some Error.ErrInternalServer)
    | none =>
      let data := l.seasonJSON.Marshal r.1
      match data.2 with
      | some _ => (none, some Error.ErrInternalServer)
      | none => (none, some Error.ErrNotImplemented)

/-- `l.GetEpisodeByNumber(showID, seasonNumber, episodeNumber)` (lines 127-147). -/
def TraktLibrary.GetEpisodeByNumber (l : TraktLibrary TShow TSeason TEpisode Season Episode)
    (showID : List Char) (seasonNumber episodeNumber : Int) : Option Episode × Option Error :=
  match (strconv.Atoi showID).2 with
  | some _ => (none, some Error.ErrInternalServer)
  | none =>
    let r := l.client.EpisodesOneBySeasonByNumber (strconv.Atoi showID).1 seasonNumber
      episodeNumber
    match r.2 with
    | some _ => (none, some Error.ErrInternalServer)
    | none =>
      let data := l.episodeJSON.Marshal r.1
      match data.2 with
      | some _ => (none, some Error.ErrInternalServer)
      | none => (some (l.episodeJSON.Unmarshal data.1), none)

/-- `l.GetEpisodesBySeasonNumber(showID, seasonNumber)` (lines 156-177). -/
def TraktLibrary.GetEpisodesBySeasonNumber
    (l : TraktLibrary TShow TSeason TEpisode Season Episode)
    (showID : List Char) (seasonNumber : Int) : Option (List Episode) × Option Error :=
  match (strconv.Atoi showID).2 with
  | some _ => (none, some Error.ErrInternalServer)
  | none =>
    let r := l.client.EpisodesAllBySeason (strconv.Atoi showID).1 seasonNumber
    match r.2 with
    | some _ => (none, some Error.ErrInternalServer)
    | none =>
      match convertAll l.episodeJSON r.1 [] with
      | none => (none, some Error.ErrInternalServer)
      | some epsRs => (some epsRs, none)

end Trakt

/-- The text is a decimal integer: an optional sign followed by one or more decimal digits. -/
def isDecimalInteger (s : List Char) : Bool :=
  let body : List Char := if s.head? == some '-' || s.head? == some '+' then s.tail else s
  !body.isEmpty && body.all isDigitRune

/-- A conversion that never fails, between records that are plain numbers: the bytes are the
number. -/
def numberCodec : JSONCodec Nat Nat where
  Marshal := fun n => ([n], none)
  Unmarshal := fun data => data.headD 0

/-- A conversion of a number into a show with that identifier, that never fails. -/
def showCodec : JSONCodec Nat Show where
  Marshal := fun n => ([n], none)
  Unmarshal := fun data => { IDs := { Trakt := (data.headD 0 : Nat) }, Title := [] }

/-- A client whose every lookup succeeds: records are numbers, a season is its number, an
episode is its number. -/
def upClient : TraktClient Nat Nat Nat where
  ShowsOne := fun id => (id.toNat, none)
  ShowsSearch := fun _ => ([2993], none)
  SeasonsAll := fun _ => ([1, 2, 3], none)
  SeasonsByNumber := fun _ sn => (sn.toNat, none)
  EpisodesOneBySeasonByNumber := fun _ _ en => (en.toNat, none)
  EpisodesAllBySeason := fun _ _ => ([1, 2], none)

/-- A client whose every lookup reports the error `e`. -/
def downClient (e : Error) : TraktClient Nat Nat Nat where
  ShowsOne := fun _ => (0, some e)
  ShowsSearch := fun _ => ([], some e)
  SeasonsAll := fun _ => ([], some e)
  SeasonsByNumber := fun _ _ => (0, some e)
  EpisodesOneBySeasonByNumber := fun _ _ _ => (0, some e)
  EpisodesAllBySeason := fun _ _ => ([], some e)

/-- A Trakt library over the client `c`, with conversions that never fail. -/
def sampleTrakt (c : TraktClient Nat Nat Nat) : TraktLibrary Nat Nat Nat Nat Nat where
  client := c
  showJSON := showCodec
  seasonJSON := numberCodec
  episodeJSON := numberCodec

set_option maxRecDepth 1000000

/-! ## General facts about `Match` -/

/-- Without a show token `Match` returns at line 142: no episode, no error. -/
theorem Match_of_show_empty (d : Dictionaries) (m : SimpleMatch) (fp : List Char)
    (h : (SimpleMatch.matchFields fp).Show = []) : SimpleMatch.Match d m fp = ([], none) := by
  simp [SimpleMatch.Match, h]

/-- With a show token, a failing search is what `Match` returns. -/
theorem Match_of_search_error (d : Dictionaries) (m : SimpleMatch) (fp : List Char) (e : Error)
    (h : (SimpleMatch.matchFields fp).Show ≠ [])
    (hq : (m.globalLibrary.QueryShowsByTitle
      (strings.Replace (SimpleMatch.matchFields fp).Show ['.'] [' '])).2 = some e) :
    SimpleMatch.Match d m fp = ([], some e) := by
  simp [SimpleMatch.Match, h, hq]

/-- With a show token, a search without candidates makes `Match` fail. -/
theorem Match_of_no_candidate (d : Dictionaries) (m : SimpleMatch) (fp : List Char)
    (h : (SimpleMatch.matchFields fp).Show ≠ [])
    (hq : m.globalLibrary.QueryShowsByTitle
      (strings.Replace (SimpleMatch.matchFields fp).Show ['.'] [' ']) = ([], none)) :
    SimpleMatch.Match d m fp = ([], some (Error.errorsNew "Not enough shows".toList)) := by
  simp [SimpleMatch.Match, h, hq]

/-- With a show token and a first candidate `sh`, `Match` returns one episode. -/
theorem Match_of_candidate (d : Dictionaries) (m : SimpleMatch) (fp : List Char)
    (sh : Show) (rest : List Show)
    (h : (SimpleMatch.matchFields fp).Show ≠ [])
    (hq : m.globalLibrary.QueryShowsByTitle
      (strings.Replace (SimpleMatch.matchFields fp).Show ['.'] [' ']) = (sh :: rest, none)) :
    SimpleMatch.Match d m fp =
      ([{ ShowID := fmt.SprintfD sh.IDs.Trakt
          Season := (strconv.Atoi (SimpleMatch.matchFields fp).Season).1
          Number := (strconv.Atoi (SimpleMatch.matchFields fp).Episode).1
          Files := [{ (SimpleMatch.parseMetadata d (filepath.Split fp).2).1 with
            Name := (filepath.Split fp).2, Path := (filepath.Split fp).1 }] }], none) := by
  simp [SimpleMatch.Match, h, hq]

/-- The three possible outcomes of `Match`: nothing, a failure without episode, or the one
episode built from the first candidate. -/
theorem Match_cases (d : Dictionaries) (m : SimpleMatch) (fp : List Char) :
    SimpleMatch.Match d m fp = ([], none) ∨
    (∃ e, SimpleMatch.Match d m fp = ([], some e)) ∨
    (∃ sh : Show, SimpleMatch.Match d m fp =
      ([{ ShowID := fmt.SprintfD sh.IDs.Trakt
          Season := (strconv.Atoi (SimpleMatch.matchFields fp).Season).1
          Number := (strconv.Atoi (SimpleMatch.matchFields fp).Episode).1
          Files := [{ (SimpleMatch.parseMetadata d (filepath.Split fp).2).1 with
            Name := (filepath.Split fp).2, Path := (filepath.Split fp).1 }] }], none)) := by
  by_cases h : (SimpleMatch.matchFields fp).Show = []
  · exact Or.inl (Match_of_show_empty d m fp h)
  · rcases hq : m.globalLibrary.QueryShowsByTitle
        (strings.Replace (SimpleMatch.matchFields fp).Show ['.'] [' ']) with ⟨shs, err⟩
    cases err with
    | some e => exact Or.inr (Or.inl ⟨e, Match_of_search_error d m fp e h (by rw [hq])⟩)
    | none =>
      cases shs with
      | nil => exact Or.inr (Or.inl ⟨_, Match_of_no_candidate d m fp h hq⟩)
      | cons sh rest => exact Or.inr (Or.inr ⟨sh, Match_of_candidate d m fp sh rest h hq⟩)

/-- A failed `strconv.Atoi` is a syntax failure with value 0 or a range failure with one of
the two bounds of a 64-bit integer. -/
theorem Atoi_error_cases (s : List Char) (e : Error) (h : (strconv.Atoi s).2 = some e) :
    (e = Error.ErrSyntax ∧ (strconv.Atoi s).1 = 0) ∨
    (e = Error.ErrRange ∧
      ((strconv.Atoi s).1 = 2 ^ 63 - 1 ∨ (strconv.Atoi s).1 = -2 ^ 63)) := by
  unfold strconv.Atoi at h ⊢
  simp only at h ⊢
  generalize (if (s.head? == some '-' || s.head? == some '+') = true then s.tail else s)
    = body at h ⊢
  generalize (s.head? == some '-') = neg at h ⊢
  by_cases hb : body.isEmpty = true
  · rw [if_pos hb] at h ⊢
    exact Or.inl ⟨(Option.some.inj h).symm, rfl⟩
  · rw [if_neg hb] at h ⊢
    cases hd : strconv.digitsValue body 0 with
    | none =>
      simp only [hd] at h ⊢
      exact Or.inl ⟨(Option.some.inj h).symm, trivial⟩
    | some un =>
      simp only [hd] at h ⊢
      by_cases h1 : (!neg && decide (2 ^ 63 ≤ un)) = true
      · rw [if_pos h1] at h ⊢
        exact Or.inr ⟨(Option.some.inj h).symm, Or.inl rfl⟩
      · rw [if_neg h1] at h ⊢
        by_cases h2 : (neg && decide (2 ^ 63 < un)) = true
        · rw [if_pos h2] at h ⊢
          exact Or.inr ⟨(Option.some.inj h).symm, Or.inr rfl⟩
        · rw [if_neg h2] at h
          exact absurd h (by simp)

/-- A show already set is kept by the guarded assignments. -/
theorem fillEmpty_Show (me mer : matchedEpisode) (h : me.Show ≠ []) :
    (fillEmpty me mer).Show = me.Show := by
  unfold fillEmpty
  simp only [h, and_false, if_false]
  split_ifs <;> rfl

/-- A season already set is kept by the guarded assignments. -/
theorem fillEmpty_Season (me mer : matchedEpisode) (h : me.Season ≠ []) :
    (fillEmpty me mer).Season = me.Season := by
  unfold fillEmpty
  by_cases h1 : mer.Show ≠ [] ∧ me.Show = [] <;>
    by_cases h3 : mer.Episode ≠ [] ∧ me.Episode = [] <;> simp [h, h1, h3]

/-- An episode already set is kept by the guarded assignments. -/
theorem fillEmpty_Episode (me mer : matchedEpisode) (h : me.Episode ≠ []) :
    (fillEmpty me mer).Episode = me.Episode := by
  unfold fillEmpty
  by_cases h1 : mer.Show ≠ [] ∧ me.Show = [] <;>
    by_cases h2 : mer.Season ≠ [] ∧ me.Season = [] <;> simp [h, h1, h2]

/-- The guarded assignment of the season changes neither show nor episode, and keeps a season
already set. -/
theorem fillSeason_fields (me mer : matchedEpisode) :
    (fillSeason me mer).Show = me.Show ∧ (fillSeason me mer).Episode = me.Episode ∧
      (me.Season ≠ [] → (fillSeason me mer).Season = me.Season) := by
  unfold fillSeason
  split_ifs <;> simp_all

/-- Every accumulator keeps its own fields. -/
theorem Keeps.refl (a : matchedEpisode) : Keeps a a := ⟨fun _ => rfl, fun _ => rfl, fun _ => rfl⟩

/-- Keeping the fields set composes. -/
theorem Keeps.trans {a b c : matchedEpisode} (h1 : Keeps a b) (h2 : Keeps b c) : Keeps a c := by
  refine ⟨fun h => ?_, fun h => ?_, fun h => ?_⟩
  · have hb := h1.1 h
    exact (h2.1 (by rw [hb]; exact h)).trans hb
  · have hb := h1.2.1 h
    exact (h2.2.1 (by rw [hb]; exact h)).trans hb
  · have hb := h1.2.2 h
    exact (h2.2.2 (by rw [hb]; exact h)).trans hb

/-- A pass with the embedded patterns keeps the fields already set. -/
theorem Keeps.passEmbedded (t : List Char) (me : matchedEpisode) :
    Keeps me (passEmbedded t me) := by
  unfold Minutes.passEmbedded
  cases «match» matcherEpisodeRegexs t with
  | none => exact Keeps.refl me
  | some mer => exact ⟨fillEmpty_Show me mer, fillEmpty_Season me mer, fillEmpty_Episode me mer⟩

/-- The season-folder pass keeps the fields already set. -/
theorem Keeps.passSeason (pd : List Char) (me : matchedEpisode) :
    Keeps me (passSeason pd me) := by
  unfold Minutes.passSeason
  cases «match» matcherSeasonRegexs pd with
  | none => exact Keeps.refl me
  | some mer =>
    have h := fillSeason_fields me mer
    exact ⟨fun _ => h.1, h.2.2, fun _ => h.2.1⟩

/-- The passes over the last element of `ds` keep the fields already set. -/
theorem Keeps.passParent (ds : List (List Char)) (me : matchedEpisode) :
    Keeps me (passParent ds me) := by
  unfold Minutes.passParent
  split_ifs
  · exact (Keeps.passSeason _ me).trans (Keeps.passEmbedded _ _)
  · exact Keeps.refl me

/-- The pass over the last but one element of `ds` keeps the fields already set. -/
theorem Keeps.passGrandparent (ds : List (List Char)) (me : matchedEpisode) :
    Keeps me (passGrandparent ds me) := by
  unfold Minutes.passGrandparent
  split_ifs
  · exact Keeps.passEmbedded _ me
  · exact Keeps.refl me

/-- The passes of `Match` after the first one keep the fields the first pass has set. -/
theorem matchFields_keeps (fp : List Char) :
    Keeps (passStandalone (strings.ToLower (filepath.Split fp).2) {})
      (SimpleMatch.matchFields fp) :=
  ((Keeps.passEmbedded _ _).trans (Keeps.passParent _ _)).trans (Keeps.passGrandparent _ _)

/-- Replacing the dots of a text by spaces changes it rune by rune. -/
theorem replaceScan_dot (s : List Char) :
    strings.replaceScan ['.'] [' '] 0 s = s.map (fun c => if c = '.' then ' ' else c) := by
  induction s with
  | nil => rfl
  | cons c cs ih =>
    by_cases hc : c = '.'
    · subst hc
      simp [strings.replaceScan, ih]
    · have hc2 : ¬ '.' = c := fun h => hc h.symm
      simp [strings.replaceScan, ih, hc, hc2]

/-- `strings.Replace(s, ".", " ", -1)` maps every dot to a space and changes nothing else. -/
theorem Replace_dot (s : List Char) :
    strings.Replace s ['.'] [' '] = s.map (fun c => if c = '.' then ' ' else c) := by
  unfold strings.Replace
  rw [if_neg (by decide), if_neg (by decide)]
  exact replaceScan_dot s

/-- The directory and the file name returned by `filepath.Split` make up the path. -/
theorem Split_append (fp : List Char) : (filepath.Split fp).1 ++ (filepath.Split fp).2 = fp := by
  unfold filepath.Split
  induction fp with
  | nil => rfl
  | cons c cs ih =>
    unfold splitAfterLast
    simp only
    split_ifs with h
    · simp only [Bool.and_eq_true, List.isEmpty_iff] at h
      rw [h.1] at ih
      simpa using ih
    · simp [ih]

/-- The tokens found in the path of the scenario. -/
theorem matchFields_wirePath :
    SimpleMatch.matchFields wirePath =
      { Show := "the.wire.".toList, Season := "03".toList, Episode := "04".toList } := by
  decide

/-! ## C1: the scenario of the specification -/

/-- C1, as stated, fails: a library that returns the single candidate 2993 for the query
"the wire", and no candidate for any other title, makes `Match` fail on the path of the
scenario with "Not enough shows", because the title searched is "the wire " (the show token
"the.wire." keeps its final dot, which becomes a space). -/
theorem scenario_query_without_space_fails :
    (singleTitleLibrary "the wire".toList).QueryShowsByTitle "the wire".toList
        = ([{ IDs := { Trakt := 2993 }, Title := "The Wire".toList }], none) ∧
      SimpleMatch.Match sampleDictionaries ⟨singleTitleLibrary "the wire".toList⟩ wirePath
        = ([], some (Error.errorsNew "Not enough shows".toList)) := by
  decide

/-- C1, amended: for the path "/tv/The.Wire/The.Wire.S03E04.720p.HDTV.x264-LOL.mkv" and every
library that returns the single candidate with identifier 2993 for the query "the wire "
(with the final space), `Match` succeeds and returns exactly one episode, with show identifier
"2993", season 3 and number 4. -/
theorem scenario_the_wire (d : Dictionaries) (m : SimpleMatch) (title : List Char)
    (hq : m.globalLibrary.QueryShowsByTitle "the wire ".toList
      = ([{ IDs := { Trakt := 2993 }, Title := title }], none)) :
    ∃ ep, SimpleMatch.Match d m wirePath = ([ep], none) ∧
      ep.ShowID = "2993".toList ∧ ep.Season = 3 ∧ ep.Number = 4 := by
  have hshow : (SimpleMatch.matchFields wirePath).Show ≠ [] := by
    rw [matchFields_wirePath]; decide
  have htitle : strings.Replace (SimpleMatch.matchFields wirePath).Show ['.'] [' ']
      = "the wire ".toList := by
    rw [matchFields_wirePath]; decide
  refine ⟨_, Match_of_candidate d m wirePath _ [] hshow (by rw [htitle]; exact hq), ?_, ?_, ?_⟩
  · show fmt.SprintfD 2993 = "2993".toList
    decide
  · show (strconv.Atoi (SimpleMatch.matchFields wirePath).Season).1 = 3
    rw [matchFields_wirePath]; decide
  · show (strconv.Atoi (SimpleMatch.matchFields wirePath).Episode).1 = 4
    rw [matchFields_wirePath]; decide

/-- Witness of C1: the library that knows the title "the wire " only. -/
theorem scenario_the_wire_witness :
    (singleTitleLibrary "the wire ".toList).QueryShowsByTitle "the wire ".toList
        = ([{ IDs := { Trakt := 2993 }, Title := "The Wire".toList }], none) ∧
      ∃ ep, SimpleMatch.Match sampleDictionaries ⟨singleTitleLibrary "the wire ".toList⟩
          wirePath = ([ep], none) ∧
        ep.ShowID = "2993".toList ∧ ep.Season = 3 ∧ ep.Number = 4 :=
  ⟨by decide, scenario_the_wire sampleDictionaries ⟨singleTitleLibrary "the wire ".toList⟩
    "The Wire".toList (by decide)⟩

/-! ## C2: a path without a show token -/

/-- C2: for every path whose accumulated show field is empty after all matching passes, and
for every library, `Match` returns an empty list and no failure. -/
theorem empty_show_short_circuit (d : Dictionaries) (m : SimpleMatch) (fp : List Char)
    (h : (SimpleMatch.matchFields fp).Show = []) :
    SimpleMatch.Match d m fp = ([], none) :=
  Match_of_show_empty d m fp h

/-- Witness of C2: "readme.txt", with a library whose search always fails. -/
theorem empty_show_short_circuit_witness :
    (SimpleMatch.matchFields "readme.txt".toList).Show = [] ∧
      SimpleMatch.Match sampleDictionaries ⟨failingLibrary Error.ErrInternalServer⟩
        "readme.txt".toList = ([], none) :=
  ⟨by decide, empty_show_short_circuit sampleDictionaries
    ⟨failingLibrary Error.ErrInternalServer⟩ "readme.txt".toList (by decide)⟩

/-! ## C3: a failing search -/

/-- C3: for every path whose accumulated show token is non-empty, if the title search of the
library fails with error `e`, `Match` fails with that same error and returns no episode. -/
theorem resolver_failure_propagated (d : Dictionaries) (m : SimpleMatch) (fp : List Char)
    (e : Error) (h : (SimpleMatch.matchFields fp).Show ≠ [])
    (hq : (m.globalLibrary.QueryShowsByTitle
      (strings.Replace (SimpleMatch.matchFields fp).Show ['.'] [' '])).2 = some e) :
    SimpleMatch.Match d m fp = ([], some e) :=
  Match_of_search_error d m fp e h hq

/-- Witness of C3: the path of the scenario with a library whose search always fails. -/
theorem resolver_failure_propagated_witness :
    (SimpleMatch.matchFields wirePath).Show ≠ [] ∧
      ((failingLibrary (Error.other 7)).QueryShowsByTitle
        (strings.Replace (SimpleMatch.matchFields wirePath).Show ['.'] [' '])).2
          = some (Error.other 7) ∧
      SimpleMatch.Match sampleDictionaries ⟨failingLibrary (Error.other 7)⟩ wirePath
        = ([], some (Error.other 7)) :=
  ⟨by decide, by decide, resolver_failure_propagated sampleDictionaries
    ⟨failingLibrary (Error.other 7)⟩ wirePath (Error.other 7) (by decide) (by decide)⟩

/-! ## C4: a search without candidates -/

/-- C4: for every path whose accumulated show token is non-empty, if the title search of the
library succeeds with zero candidates, `Match` fails with the error "Not enough shows" and
returns no episode. -/
theorem no_matching_show (d : Dictionaries) (m : SimpleMatch) (fp : List Char)
    (h : (SimpleMatch.matchFields fp).Show ≠ [])
    (hq : m.globalLibrary.QueryShowsByTitle
      (strings.Replace (SimpleMatch.matchFields fp).Show ['.'] [' ']) = ([], none)) :
    SimpleMatch.Match d m fp = ([], some (Error.errorsNew "Not enough shows".toList)) :=
  Match_of_no_candidate d m fp h hq

/-- Witness of C4: the path of the scenario with a library that never finds a candidate. -/
theorem no_matching_show_witness :
    (SimpleMatch.matchFields wirePath).Show ≠ [] ∧
      (constantLibrary []).QueryShowsByTitle
        (strings.Replace (SimpleMatch.matchFields wirePath).Show ['.'] [' ']) = ([], none) ∧
      SimpleMatch.Match sampleDictionaries ⟨constantLibrary []⟩ wirePath
        = ([], some (Error.errorsNew "Not enough shows".toList)) :=
  ⟨by decide, by decide, no_matching_show sampleDictionaries ⟨constantLibrary []⟩ wirePath
    (by decide) (by decide)⟩

/-! ## C5: season and episode tokens that do not convert -/

/-- C5, as stated, fails: in "show.s99999999999999999999e01.mkv" the season token is
"99999999999999999999", whose conversion fails (out of range), and `Match` returns an episode
whose season is 9223372036854775807, not 0. -/
theorem failed_conversion_is_not_zero :
    (SimpleMatch.matchFields longSeasonPath).Season = "99999999999999999999".toList ∧
      (strconv.Atoi (SimpleMatch.matchFields longSeasonPath).Season).2
        = some Error.ErrRange ∧
      (SimpleMatch.Match sampleDictionaries ⟨constantLibrary [theWire]⟩ longSeasonPath).2
        = none ∧
      (SimpleMatch.Match sampleDictionaries ⟨constantLibrary [theWire]⟩ longSeasonPath).1.map
        (fun ep => (ep.Season, ep.Number)) = [(9223372036854775807, 1)] := by
  decide

/-- C5, amended: for every path and library for which `Match` returns an episode, `Match` does
not fail, and when the conversion of the season token (respectively the episode token) fails,
the returned season (respectively number) is 0 for a malformed token and one of the bounds
`2^63 - 1`, `-2^63` of the integer type for a token out of range. -/
theorem numeric_leniency (d : Dictionaries) (m : SimpleMatch) (fp : List Char)
    (ep : UserEpisode) (h : (SimpleMatch.Match d m fp).1 = [ep]) :
    (SimpleMatch.Match d m fp).2 = none ∧
    (∀ e, (strconv.Atoi (SimpleMatch.matchFields fp).Season).2 = some e →
      (e = Error.ErrSyntax ∧ ep.Season = 0) ∨
      (e = Error.ErrRange ∧ (ep.Season = 2 ^ 63 - 1 ∨ ep.Season = -2 ^ 63))) ∧
    (∀ e, (strconv.Atoi (SimpleMatch.matchFields fp).Episode).2 = some e →
      (e = Error.ErrSyntax ∧ ep.Number = 0) ∨
      (e = Error.ErrRange ∧ (ep.Number = 2 ^ 63 - 1 ∨ ep.Number = -2 ^ 63))) := by
  rcases Match_cases d m fp with h0 | ⟨e, h0⟩ | ⟨sh, h0⟩
  · rw [h0] at h; exact absurd h (by simp)
  · rw [h0] at h; exact absurd h (by simp)
  · rw [h0] at h ⊢
    have hep := List.head_eq_of_cons_eq h
    subst hep
    exact ⟨rfl, fun e he => Atoi_error_cases _ e he, fun e he => Atoi_error_cases _ e he⟩

/-- Witness of C5: the file name with a season token of twenty digits. -/
theorem numeric_leniency_witness :
    (SimpleMatch.Match sampleDictionaries ⟨constantLibrary [theWire]⟩ longSeasonPath).1
      = [{ ShowID := "2993".toList, Season := 9223372036854775807, Number := 1,
           Files := [{ Name := longSeasonPath }] }] ∧
    (SimpleMatch.Match sampleDictionaries ⟨constantLibrary [theWire]⟩ longSeasonPath).2
      = none ∧
    (∀ e, (strconv.Atoi (SimpleMatch.matchFields longSeasonPath).Season).2 = some e →
      (e = Error.ErrSyntax ∧ (9223372036854775807 : Int) = 0) ∨
      (e = Error.ErrRange ∧ ((9223372036854775807 : Int) = 2 ^ 63 - 1 ∨
        (9223372036854775807 : Int) = -2 ^ 63))) ∧
    (∀ e, (strconv.Atoi (SimpleMatch.matchFields longSeasonPath).Episode).2 = some e →
      (e = Error.ErrSyntax ∧ (1 : Int) = 0) ∨
      (e = Error.ErrRange ∧ ((1 : Int) = 2 ^ 63 - 1 ∨ (1 : Int) = -2 ^ 63))) :=
  ⟨by decide, numeric_leniency sampleDictionaries ⟨constantLibrary [theWire]⟩ longSeasonPath
    { ShowID := "2993".toList, Season := 9223372036854775807, Number := 1,
      Files := [{ Name := longSeasonPath }] } (by decide)⟩

/-! ## C6: the parent directory -/

/-- C6, code evaluated at the failing input: for "/tv/The.Wire.S03E04/episode.mkv" the
fragments tried after the file name are the pieces of the file name "episode.mkv" between
colons, not the directory names; although the embedded patterns find show "the.wire.", season
"03" and episode "04" in the lower-cased parent directory name, every field stays empty and
`Match` returns no episode, for every library. -/
theorem parent_directory_not_consulted (d : Dictionaries) (m : SimpleMatch) :
    filepath.Split wireDirPath = ("/tv/The.Wire.S03E04/".toList, "episode.mkv".toList) ∧
    filepath.SplitList (strings.ToLower (filepath.Split wireDirPath).2)
      = ["episode.mkv".toList] ∧
    «match» matcherEpisodeRegexs "the.wire.s03e04".toList
      = some { Show := "the.wire.".toList, Season := "03".toList, Episode := "04".toList } ∧
    SimpleMatch.matchFields wireDirPath = {} ∧
    SimpleMatch.Match d m wireDirPath = ([], none) :=
  ⟨by decide, by decide, by decide, by decide, Match_of_show_empty d m wireDirPath (by decide)⟩

/-! ## C7: merge priority -/

/-- C7: for every path, whenever the first pass over the file name yields a non-empty show,
season or episode token, the final accumulator holds exactly that token for that field,
whatever the later passes yield. -/
theorem merge_priority (fp : List Char) (mer : matchedEpisode)
    (hfirst : «match» matcherStandaloneEpisodeRegexs
      (strings.ToLower (filepath.Split fp).2) = some mer) :
    (mer.Show ≠ [] → (SimpleMatch.matchFields fp).Show = mer.Show) ∧
    (mer.Season ≠ [] → (SimpleMatch.matchFields fp).Season = mer.Season) ∧
    (mer.Episode ≠ [] → (SimpleMatch.matchFields fp).Episode = mer.Episode) := by
  have h := matchFields_keeps fp
  unfold passStandalone at h
  rw [hfirst] at h
  exact h

/-- Witness of C7: in "a.s01e02:b.s03e04" the first pass finds season "01" in the whole name,
the later pass over the fragment "b.s03e04" finds season "03", and "01" is kept. -/
theorem merge_priority_witness :
    «match» matcherStandaloneEpisodeRegexs
      (strings.ToLower (filepath.Split "a.s01e02:b.s03e04".toList).2)
        = some { Show := "a.".toList, Season := "01".toList, Episode := "02".toList } ∧
    «match» matcherEpisodeRegexs "b.s03e04".toList
        = some { Show := "b.".toList, Season := "03".toList, Episode := "04".toList } ∧
    (("a.".toList ≠ [] →
        (SimpleMatch.matchFields "a.s01e02:b.s03e04".toList).Show = "a.".toList) ∧
      ("01".toList ≠ [] →
        (SimpleMatch.matchFields "a.s01e02:b.s03e04".toList).Season = "01".toList) ∧
      ("02".toList ≠ [] →
        (SimpleMatch.matchFields "a.s01e02:b.s03e04".toList).Episode = "02".toList)) :=
  ⟨by decide, by decide, merge_priority "a.s01e02:b.s03e04".toList
    { Show := "a.".toList, Season := "01".toList, Episode := "02".toList } (by decide)⟩

/-! ## C8: the first candidate -/

/-- C8: for every path whose accumulated show token is non-empty and every non-empty ranking
`sh :: rest` returned by the library, `Match` returns one episode whose show identifier is the
decimal rendering of the numeric identifier of `sh`, whatever `rest` is. -/
theorem first_candidate_wins (d : Dictionaries) (m : SimpleMatch) (fp : List Char)
    (sh : Show) (rest : List Show)
    (h : (SimpleMatch.matchFields fp).Show ≠ [])
    (hq : m.globalLibrary.QueryShowsByTitle
      (strings.Replace (SimpleMatch.matchFields fp).Show ['.'] [' ']) = (sh :: rest, none)) :
    ∃ ep, SimpleMatch.Match d m fp = ([ep], none) ∧
      ep.ShowID = fmt.SprintfD sh.IDs.Trakt :=
  ⟨_, Match_of_candidate d m fp sh rest h hq, rfl⟩

/-- Witness of C8: two candidates, of which the first gives the identifier "2993". -/
theorem first_candidate_wins_witness :
    (SimpleMatch.matchFields wirePath).Show ≠ [] ∧
    (constantLibrary [theWire, theWireUK]).QueryShowsByTitle
      (strings.Replace (SimpleMatch.matchFields wirePath).Show ['.'] [' '])
        = ([theWire, theWireUK], none) ∧
    fmt.SprintfD theWire.IDs.Trakt = "2993".toList ∧
    ∃ ep, SimpleMatch.Match sampleDictionaries ⟨constantLibrary [theWire, theWireUK]⟩ wirePath
        = ([ep], none) ∧
      ep.ShowID = fmt.SprintfD theWire.IDs.Trakt :=
  ⟨by decide, by decide, by decide, first_candidate_wins sampleDictionaries
    ⟨constantLibrary [theWire, theWireUK]⟩ wirePath theWire [theWireUK]
    (by decide) (by decide)⟩

/-! ## C9: the title searched -/

/-- C9: for every path whose accumulated show token `s` is non-empty, the title searched is
`s` with every dot replaced by a space and nothing else changed; `Match` returns what the
answer of the library for that one title decides (its error, or "Not enough shows" for no
candidate, or the episode of its first candidate), and two libraries that agree on that title
give the same result of `Match`. -/
theorem show_title_normalization (d : Dictionaries) (m1 m2 : SimpleMatch) (fp : List Char)
    (h : (SimpleMatch.matchFields fp).Show ≠ [])
    (hq : m1.globalLibrary.QueryShowsByTitle
        ((SimpleMatch.matchFields fp).Show.map (fun c => if c = '.' then ' ' else c))
      = m2.globalLibrary.QueryShowsByTitle
        ((SimpleMatch.matchFields fp).Show.map (fun c => if c = '.' then ' ' else c))) :
    strings.Replace (SimpleMatch.matchFields fp).Show ['.'] [' ']
      = (SimpleMatch.matchFields fp).Show.map (fun c => if c = '.' then ' ' else c) ∧
    SimpleMatch.Match d m1 fp = SimpleMatch.Match d m2 fp ∧
    (∀ e, (m1.globalLibrary.QueryShowsByTitle
        ((SimpleMatch.matchFields fp).Show.map (fun c => if c = '.' then ' ' else c))).2
          = some e →
      SimpleMatch.Match d m1 fp = ([], some e)) ∧
    (m1.globalLibrary.QueryShowsByTitle
        ((SimpleMatch.matchFields fp).Show.map (fun c => if c = '.' then ' ' else c))
          = ([], none) →
      SimpleMatch.Match d m1 fp = ([], some (Error.errorsNew "Not enough shows".toList))) ∧
    (∀ sh rest, m1.globalLibrary.QueryShowsByTitle
        ((SimpleMatch.matchFields fp).Show.map (fun c => if c = '.' then ' ' else c))
          = (sh :: rest, none) →
      ∃ ep, SimpleMatch.Match d m1 fp = ([ep], none) ∧
        ep.ShowID = fmt.SprintfD sh.IDs.Trakt) := by
  refine ⟨Replace_dot _, ?_, ?_, ?_, ?_⟩
  · unfold SimpleMatch.Match
    simp only [h, if_false, Replace_dot, hq]
  · intro e he
    exact Match_of_search_error d m1 fp e h (by rw [Replace_dot]; exact he)
  · intro he
    exact Match_of_no_candidate d m1 fp h (by rw [Replace_dot]; exact he)
  · intro sh rest he
    exact ⟨_, Match_of_candidate d m1 fp sh rest h (by rw [Replace_dot]; exact he), rfl⟩

/-- Witness of C9: two libraries that agree on "the wire " and differ on "the wire" give the
same result, and two libraries that differ on "the wire " only give different results. -/
theorem show_title_normalization_witness :
    (SimpleMatch.matchFields wirePath).Show ≠ [] ∧
    (SimpleMatch.matchFields wirePath).Show.map (fun c => if c = '.' then ' ' else c)
      = "the wire ".toList ∧
    (singleTitleLibrary "the wire ".toList).QueryShowsByTitle "the wire".toList
      ≠ (constantLibrary [theWire]).QueryShowsByTitle "the wire".toList ∧
    SimpleMatch.Match sampleDictionaries ⟨singleTitleLibrary "the wire ".toList⟩ wirePath
      ≠ SimpleMatch.Match sampleDictionaries ⟨constantLibrary []⟩ wirePath ∧
    SimpleMatch.Match sampleDictionaries ⟨singleTitleLibrary "the wire ".toList⟩ wirePath
      ≠ SimpleMatch.Match sampleDictionaries ⟨failingLibrary (Error.other 7)⟩ wirePath ∧
    (strings.Replace (SimpleMatch.matchFields wirePath).Show ['.'] [' ']
      = (SimpleMatch.matchFields wirePath).Show.map (fun c => if c = '.' then ' ' else c) ∧
    SimpleMatch.Match sampleDictionaries ⟨singleTitleLibrary "the wire ".toList⟩ wirePath
      = SimpleMatch.Match sampleDictionaries ⟨constantLibrary [theWire]⟩ wirePath ∧
    (∀ e, ((singleTitleLibrary "the wire ".toList).QueryShowsByTitle
        ((SimpleMatch.matchFields wirePath).Show.map
          (fun c => if c = '.' then ' ' else c))).2 = some e →
      SimpleMatch.Match sampleDictionaries ⟨singleTitleLibrary "the wire ".toList⟩ wirePath
        = ([], some e)) ∧
    ((singleTitleLibrary "the wire ".toList).QueryShowsByTitle
        ((SimpleMatch.matchFields wirePath).Show.map
          (fun c => if c = '.' then ' ' else c)) = ([], none) →
      SimpleMatch.Match sampleDictionaries ⟨singleTitleLibrary "the wire ".toList⟩ wirePath
        = ([], some (Error.errorsNew "Not enough shows".toList))) ∧
    (∀ sh rest, (singleTitleLibrary "the wire ".toList).QueryShowsByTitle
        ((SimpleMatch.matchFields wirePath).Show.map
          (fun c => if c = '.' then ' ' else c)) = (sh :: rest, none) →
      ∃ ep, SimpleMatch.Match sampleDictionaries ⟨singleTitleLibrary "the wire ".toList⟩
          wirePath = ([ep], none) ∧
        ep.ShowID = fmt.SprintfD sh.IDs.Trakt)) :=
  ⟨by decide, by decide, by decide, by decide, by decide,
    show_title_normalization sampleDictionaries
      ⟨singleTitleLibrary "the wire ".toList⟩ ⟨constantLibrary [theWire]⟩ wirePath
      (by decide) (by decide)⟩

/-! ## C10: the shape of the result -/

/-- C10: for every path and library, `Match` returns either no episode or exactly one, whose
files list holds exactly one file, named by the file-name component of the path as given and
with the directory portion of the path as its path; this holds in particular for every
successful call, and a call that fails returns no episode. -/
theorem output_shape (d : Dictionaries) (m : SimpleMatch) (fp : List Char) :
    (SimpleMatch.Match d m fp).1 = [] ∨
    ∃ ep uf, (SimpleMatch.Match d m fp).2 = none ∧
      (SimpleMatch.Match d m fp).1 = [ep] ∧ ep.Files = [uf] ∧
      uf.Name = (filepath.Split fp).2 ∧ uf.Path = (filepath.Split fp).1 ∧
      uf.Path ++ uf.Name = fp := by
  rcases Match_cases d m fp with h0 | ⟨e, h0⟩ | ⟨sh, h0⟩
  · exact Or.inl (by rw [h0])
  · exact Or.inl (by rw [h0])
  · rw [h0]
    exact Or.inr ⟨_, _, rfl, rfl, rfl, rfl, rfl, Split_append fp⟩

/-- Witness of C10: the double-episode name "show.s03e04-e05.mkv" gives one episode. -/
theorem output_shape_witness :
    (SimpleMatch.matchFields "/tv/show.s03e04-e05.mkv".toList).SecondEpisode = "05".toList ∧
    (SimpleMatch.Match sampleDictionaries ⟨constantLibrary [theWire]⟩
      "/tv/show.s03e04-e05.mkv".toList).1.length = 1 ∧
    ((SimpleMatch.Match sampleDictionaries ⟨constantLibrary [theWire]⟩
        "/tv/show.s03e04-e05.mkv".toList).1 = [] ∨
      ∃ ep uf, (SimpleMatch.Match sampleDictionaries ⟨constantLibrary [theWire]⟩
          "/tv/show.s03e04-e05.mkv".toList).2 = none ∧
        (SimpleMatch.Match sampleDictionaries ⟨constantLibrary [theWire]⟩
          "/tv/show.s03e04-e05.mkv".toList).1 = [ep] ∧ ep.Files = [uf] ∧
        uf.Name = (filepath.Split "/tv/show.s03e04-e05.mkv".toList).2 ∧
        uf.Path = (filepath.Split "/tv/show.s03e04-e05.mkv".toList).1 ∧
        uf.Path ++ uf.Name = "/tv/show.s03e04-e05.mkv".toList) :=
  ⟨by decide, by decide, output_shape sampleDictionaries
    ⟨constantLibrary [theWire]⟩ "/tv/show.s03e04-e05.mkv".toList⟩

/-! ## Facts about the dictionary loops -/

/-- `strings.Contains(s, substr)` holds exactly when `substr` is a contiguous part of `s`. -/
theorem Contains_iff (s substr : List Char) :
    strings.Contains s substr = true ↔ substr <:+: s := by
  induction s with
  | nil =>
    simp [strings.Contains, List.isEmpty_iff]
  | cons c cs ih =>
    rw [strings.Contains, Bool.or_eq_true, ih, List.infix_cons_iff, List.isPrefixOf_iff_prefix]

/-- A dictionary loop finds the first token that is hit, and nothing when none is. -/
theorem firstToken_spec (hit : List Char → Bool) (dict : List (List Char)) :
    (∃ before m after, dict = before ++ m :: after ∧ hit m = true ∧
        (∀ x ∈ before, hit x = false) ∧ firstToken hit dict = m) ∨
      ((∀ x ∈ dict, hit x = false) ∧ firstToken hit dict = []) := by
  induction dict with
  | nil => exact Or.inr ⟨by simp, rfl⟩
  | cons m ms ih =>
    by_cases hm : hit m = true
    · exact Or.inl ⟨[], m, ms, rfl, hm, by simp, by simp [firstToken, hm]⟩
    · have hm2 : hit m = false := by simpa using hm
      rcases ih with ⟨before, x, after, hd, hx, hb, hf⟩ | ⟨hall, hf⟩
      · refine Or.inl ⟨m :: before, x, after, by rw [hd]; rfl, hx, ?_, by simp [firstToken, hm2, hf]⟩
        intro y hy
        rcases List.mem_cons.1 hy with rfl | hy
        · exact hm2
        · exact hb y hy
      · refine Or.inr ⟨?_, by simp [firstToken, hm2, hf]⟩
        intro y hy
        rcases List.mem_cons.1 hy with rfl | hy
        · exact hm2
        · exact hall y hy

/-- A dictionary loop that tests containment in `text` finds the first contained token. -/
theorem firstToken_contained (text : List Char) (dict : List (List Char)) :
    IsFirstContained text dict (firstToken (fun m => strings.Contains text m) dict) := by
  rcases firstToken_spec (fun m => strings.Contains text m) dict with
    ⟨before, m, after, hd, hm, hb, hf⟩ | ⟨hall, hf⟩
  · refine Or.inl ⟨before, m, after, hd, (Contains_iff _ _).1 hm, ?_, hf⟩
    intro x hx hc
    have := hb x hx
    rw [(Contains_iff _ _).2 hc] at this
    exact Bool.noConfusion this
  · refine Or.inr ⟨?_, hf⟩
    intro x hx hc
    have := hall x hx
    rw [(Contains_iff _ _).2 hc] at this
    exact Bool.noConfusion this

/-! ## C11: codec, source and resolution -/

/-- C11, as stated, fails: with the token "X264" in the video-codec dictionary the name
"a.X264.mkv" contains the token when both are compared without regard to case, yet the field
stays unset, because only the file name is lower-cased and the token is compared as declared;
the same holds in the three other categories. -/
theorem upper_case_token_not_found :
    strings.Contains (strings.ToLower "a.X264.AAC.HDTV.720P.mkv".toList)
        (strings.ToLower "X264".toList) = true ∧
      (SimpleMatch.parseMetadata upperCaseDictionaries
        "a.X264.AAC.HDTV.720P.mkv".toList).1.VideoCodec = [] ∧
      (SimpleMatch.parseMetadata upperCaseDictionaries
        "a.X264.AAC.HDTV.720P.mkv".toList).1.AudioCodec = [] ∧
      (SimpleMatch.parseMetadata upperCaseDictionaries
        "a.X264.AAC.HDTV.720P.mkv".toList).1.Source = [] ∧
      (SimpleMatch.parseMetadata upperCaseDictionaries
        "a.X264.AAC.HDTV.720P.mkv".toList).1.Resolution = [] := by
  decide

/-- C11, amended: for every file name and each of the four categories video codec, audio
codec, source and resolution, `parseMetadata` sets the field to the first token, in the
declared order of the dictionary, that occurs in the lower-cased file name, and leaves the
field unset when the lower-cased file name contains no token of that dictionary. -/
theorem dictionary_metadata (d : Dictionaries) (filename : List Char) :
    IsFirstContained (strings.ToLower filename) d.fileVideoCodecs
      (SimpleMatch.parseMetadata d filename).1.VideoCodec ∧
    IsFirstContained (strings.ToLower filename) d.fileAudioCodecs
      (SimpleMatch.parseMetadata d filename).1.AudioCodec ∧
    IsFirstContained (strings.ToLower filename) d.fileSources
      (SimpleMatch.parseMetadata d filename).1.Source ∧
    IsFirstContained (strings.ToLower filename) d.fileResolutions
      (SimpleMatch.parseMetadata d filename).1.Resolution :=
  ⟨firstToken_contained _ _, firstToken_contained _ _, firstToken_contained _ _,
    firstToken_contained _ _⟩

/-! ## C12: the release group -/

/-- C12: for every file name, `parseMetadata` sets the release group to the first group `g` of
the dictionary, in declared order, such that the file name as given contains a hyphen followed
by `g`, and leaves it unset when there is none; with the sample dictionaries the name ending in
"-LOL.mkv" gives "LOL" and the same name with "-lol" gives nothing. -/
theorem release_group_case_sensitive (d : Dictionaries) (filename : List Char) :
    ((∃ before g after, d.fileReleaseGroups = before ++ g :: after ∧
        ('-' :: g) <:+: filename ∧ (∀ x ∈ before, ¬ ('-' :: x) <:+: filename) ∧
        (SimpleMatch.parseMetadata d filename).1.ReleaseGroup = g) ∨
      ((∀ x ∈ d.fileReleaseGroups, ¬ ('-' :: x) <:+: filename) ∧
        (SimpleMatch.parseMetadata d filename).1.ReleaseGroup = [])) ∧
    (SimpleMatch.parseMetadata sampleDictionaries (filepath.Split wirePath).2).1.ReleaseGroup
      = "LOL".toList ∧
    (SimpleMatch.parseMetadata sampleDictionaries wireNameLowerGroup).1.ReleaseGroup = [] := by
  refine ⟨?_, by decide, by decide⟩
  rcases firstToken_spec (fun m => strings.Contains filename ('-' :: m)) d.fileReleaseGroups
    with ⟨before, g, after, hd, hg, hb, hf⟩ | ⟨hall, hf⟩
  · refine Or.inl ⟨before, g, after, hd, (Contains_iff _ _).1 hg, ?_, hf⟩
    intro x hx hc
    have := hb x hx
    simp only at this
    rw [(Contains_iff _ _).2 hc] at this
    exact Bool.noConfusion this
  · refine Or.inr ⟨?_, hf⟩
    intro x hx hc
    have := hall x hx
    simp only at this
    rw [(Contains_iff _ _).2 hc] at this
    exact Bool.noConfusion this

/-! ## C13: the file record does not depend on the library -/

/-- C13: metadata extraction never fails, and for every path and any two libraries under which
`Match` returns an episode, the files of the two episodes are identical and consist of the one
record extracted from the file name alone, with name and path set from the input path. -/
theorem metadata_independence (d : Dictionaries) (m1 m2 : SimpleMatch) (fp : List Char)
    (ep1 ep2 : UserEpisode)
    (h1 : (SimpleMatch.Match d m1 fp).1 = [ep1]) (h2 : (SimpleMatch.Match d m2 fp).1 = [ep2]) :
    (∀ filename, (SimpleMatch.parseMetadata d filename).2 = none) ∧
    ep1.Files = ep2.Files ∧
    ep1.Files = [{ (SimpleMatch.parseMetadata d (filepath.Split fp).2).1 with
      Name := (filepath.Split fp).2, Path := (filepath.Split fp).1 }] := by
  have key : ∀ (m : SimpleMatch) (ep : UserEpisode), (SimpleMatch.Match d m fp).1 = [ep] →
      ep.Files = [{ (SimpleMatch.parseMetadata d (filepath.Split fp).2).1 with
        Name := (filepath.Split fp).2, Path := (filepath.Split fp).1 }] := by
    intro m ep h
    rcases Match_cases d m fp with h0 | ⟨e, h0⟩ | ⟨sh, h0⟩
    · rw [h0] at h; exact absurd h (by simp)
    · rw [h0] at h; exact absurd h (by simp)
    · rw [h0] at h
      have hep := List.head_eq_of_cons_eq h
      subst hep
      rfl
  exact ⟨fun _ => rfl, (key m1 ep1 h1).trans (key m2 ep2 h2).symm, key m1 ep1 h1⟩

/-- Witness of C13: the path of the scenario under two libraries with different candidates. -/
theorem metadata_independence_witness :
    (SimpleMatch.Match sampleDictionaries ⟨constantLibrary [theWire]⟩ wirePath).1
      = [{ ShowID := "2993".toList, Season := 3, Number := 4, Files := [wireFile] }] ∧
    (SimpleMatch.Match sampleDictionaries ⟨constantLibrary [theWireUK]⟩ wirePath).1
      = [{ ShowID := "41".toList, Season := 3, Number := 4, Files := [wireFile] }] ∧
    ((∀ filename, (SimpleMatch.parseMetadata sampleDictionaries filename).2 = none) ∧
      [wireFile] = [wireFile] ∧
      [wireFile] = [{ (SimpleMatch.parseMetadata sampleDictionaries
          (filepath.Split wirePath).2).1 with
        Name := (filepath.Split wirePath).2, Path := (filepath.Split wirePath).1 }]) :=
  ⟨by decide, by decide, metadata_independence sampleDictionaries
    ⟨constantLibrary [theWire]⟩ ⟨constantLibrary [theWireUK]⟩ wirePath
    { ShowID := "2993".toList, Season := 3, Number := 4, Files := [wireFile] }
    { ShowID := "41".toList, Season := 3, Number := 4, Files := [wireFile] }
    (by decide) (by decide)⟩

/-! ## C18: the table handed to `match` is not read -/

/-- The accumulator does not depend on the tables handed to `match`. -/
theorem matchFieldsWith_eq (A B C : List Regexp) (fp : List Char) :
    SimpleMatch.matchFieldsWith A B C fp = SimpleMatch.matchFields fp := rfl

/-- C18: `match` gives the same result whatever table it is handed: for every two tables `A`
and `B` and every fragment `t`, `match(A, t) = match(B, t)`, both being the result of the loop
over the embedded patterns; hence `Match` gives the same result whatever tables stand at its
call sites in place of the standalone, embedded and season-folder tables. -/
theorem ignored_selector :
    (∀ (A B : List Regexp) (t : List Char),
      «match» A t = «match» B t ∧ «match» A t = matchLoop t matcherEpisodeRegexs) ∧
    (∀ (A B C : List Regexp) (fp : List Char),
      SimpleMatch.matchFieldsWith A B C fp = SimpleMatch.matchFields fp) ∧
    (∀ (A B C : List Regexp) (d : Dictionaries) (m : SimpleMatch) (fp : List Char),
      SimpleMatch.MatchWith A B C d m fp = SimpleMatch.Match d m fp) := by
  refine ⟨fun A B t => ⟨rfl, rfl⟩, fun A B C fp => rfl, fun A B C d m fp => ?_⟩
  unfold SimpleMatch.MatchWith SimpleMatch.Match
  rw [matchFieldsWith_eq]

/-! ## C17: what `match` returns for a table other than the embedded one -/

/-- C17, code evaluated at the failing input: the season-folder pattern matches "season 3",
and a loop over the season-folder table returns season "3" for it; `match`, handed that table,
loops over the embedded patterns instead and returns nothing. -/
theorem match_of_season_table_finds_nothing :
    (matcherSeasonRegexs.map (fun rx => rx.FindStringSubmatch "season 3".toList))
      = [some ["season 3".toList, "3".toList]] ∧
    matchLoop "season 3".toList matcherSeasonRegexs = some { Season := "3".toList } ∧
    «match» matcherSeasonRegexs "season 3".toList = none := by
  decide

/-! ## C19: the directories of the path -/

/-- The accumulator depends on the path through its file name only. -/
theorem matchFields_of_same_name (fp1 fp2 : List Char)
    (h : (filepath.Split fp1).2 = (filepath.Split fp2).2) :
    SimpleMatch.matchFields fp1 = SimpleMatch.matchFields fp2 := by
  unfold SimpleMatch.matchFields
  rw [h]

/-- C19: for every library and every two paths with the same final file-name component, the
accumulated show, season and episode are the same, and `Match` returns the same error and the
same episodes up to the path field of the file records. -/
theorem directory_independence (d : Dictionaries) (m : SimpleMatch) (fp1 fp2 : List Char)
    (h : (filepath.Split fp1).2 = (filepath.Split fp2).2) :
    SimpleMatch.matchFields fp1 = SimpleMatch.matchFields fp2 ∧
    (SimpleMatch.Match d m fp1).2 = (SimpleMatch.Match d m fp2).2 ∧
    (SimpleMatch.Match d m fp1).1.map erasePath
      = (SimpleMatch.Match d m fp2).1.map erasePath := by
  have hf := matchFields_of_same_name fp1 fp2 h
  refine ⟨hf, ?_⟩
  by_cases hs : (SimpleMatch.matchFields fp2).Show = []
  · rw [Match_of_show_empty d m fp1 (by rw [hf]; exact hs), Match_of_show_empty d m fp2 hs]
    exact ⟨rfl, rfl⟩
  · have hs1 : (SimpleMatch.matchFields fp1).Show ≠ [] := by rw [hf]; exact hs
    rcases hq : m.globalLibrary.QueryShowsByTitle
        (strings.Replace (SimpleMatch.matchFields fp2).Show ['.'] [' ']) with ⟨shs, err⟩
    cases err with
    | some e =>
      rw [Match_of_search_error d m fp1 e hs1 (by rw [hf, hq]),
        Match_of_search_error d m fp2 e hs (by rw [hq])]
      exact ⟨rfl, rfl⟩
    | none =>
      cases shs with
      | nil =>
        rw [Match_of_no_candidate d m fp1 hs1 (by rw [hf, hq]),
          Match_of_no_candidate d m fp2 hs hq]
        exact ⟨rfl, rfl⟩
      | cons sh rest =>
        rw [Match_of_candidate d m fp1 sh rest hs1 (by rw [hf, hq]),
          Match_of_candidate d m fp2 sh rest hs hq]
        refine ⟨rfl, ?_⟩
        simp only [List.map, erasePath, hf, h, SimpleMatch.parseMetadata]

/-- Witness of C19: the file of the scenario under two different directory chains, the second
of which carries another show and another season in its names. -/
theorem directory_independence_witness :
    (filepath.Split wirePath).2 = (filepath.Split wirePathElsewhere).2 ∧
    (filepath.Split wirePath).1 ≠ (filepath.Split wirePathElsewhere).1 ∧
    (SimpleMatch.matchFields wirePath = SimpleMatch.matchFields wirePathElsewhere ∧
      (SimpleMatch.Match sampleDictionaries ⟨constantLibrary [theWire]⟩ wirePath).2
        = (SimpleMatch.Match sampleDictionaries ⟨constantLibrary [theWire]⟩
            wirePathElsewhere).2 ∧
      (SimpleMatch.Match sampleDictionaries ⟨constantLibrary [theWire]⟩ wirePath).1.map
          erasePath
        = (SimpleMatch.Match sampleDictionaries ⟨constantLibrary [theWire]⟩
            wirePathElsewhere).1.map erasePath) :=
  ⟨by decide, by decide, directory_independence sampleDictionaries
    ⟨constantLibrary [theWire]⟩ wirePath wirePathElsewhere (by decide)⟩

/-! ## C20: the bare numeric block -/

/-- A group whose name is not "show" leaves the show as it is. -/
theorem assignField_Show (me : matchedEpisode) (n v : List Char) (h : n ≠ "show".toList) :
    (assignField me n v).Show = me.Show := by
  unfold assignField
  rw [if_neg h]
  split_ifs <;> rfl

/-- The loop of `parseMatches` over groups none of which is named "show" leaves the show as it
is. -/
theorem foldl_assignField_Show (l : List (List Char × List Char)) (me : matchedEpisode)
    (h : ∀ p ∈ l, p.1 ≠ "show".toList) :
    (l.foldl (fun me p => assignField me p.1 p.2) me).Show = me.Show := by
  induction l generalizing me with
  | nil => rfl
  | cons p ps ih =>
    rw [List.foldl_cons, ih _ (fun q hq => h q (List.mem_cons_of_mem _ hq))]
    exact assignField_Show me p.1 p.2 (h p (List.mem_cons_self _ _))

/-- A pattern that declares no group named "show" yields an empty show. -/
theorem parseMatches_Show (rx : Regexp) (ms0 : List (List Char))
    (h : "show".toList ∉ rx.subexpNames) : (parseMatches rx ms0).Show = [] := by
  unfold parseMatches
  rw [foldl_assignField_Show]
  intro p hp hn
  have hmem := (List.of_mem_zip (show (p.1, p.2) ∈ _ from hp)).1
  rw [hn] at hmem
  exact h hmem

/-- Filling an accumulator from itself changes nothing. -/
theorem fillEmpty_self (me : matchedEpisode) : fillEmpty me me = me := by
  unfold fillEmpty
  by_cases h1 : me.Show = [] <;> by_cases h2 : me.Season = [] <;>
    by_cases h3 : me.Episode = [] <;> simp [h1, h2, h3]

/-- Filling the season of an accumulator from itself changes nothing. -/
theorem fillSeason_self (me : matchedEpisode) : fillSeason me me = me := by
  unfold fillSeason
  by_cases h2 : me.Season = [] <;> simp [h2]

/-- A text without the separator is one piece. -/
theorem splitOn_of_not_mem (sep : Char) (s : List Char) (h : sep ∉ s) :
    strings.splitOn sep s = [s] := by
  induction s with
  | nil => rfl
  | cons c cs ih =>
    have hc : c ≠ sep := fun e => h (by rw [e]; exact List.mem_cons_self _ _)
    have hcs : sep ∉ cs := fun e => h (List.mem_cons_of_mem _ e)
    simp [strings.splitOn, hc, ih hcs]

/-- A code point found in a table of runs is at least the least target of the table. -/
theorem lookupLower_ge (bound n k : Nat) (table : List CaseRange)
    (hall : table.all (fun e => decide (bound ≤ e.target)) = true)
    (h : unicode.lookupLower n table = some k) : bound ≤ k := by
  induction table with
  | nil => exact absurd h (by simp [unicode.lookupLower])
  | cons e rest ih =>
    rw [List.all_cons, Bool.and_eq_true] at hall
    unfold unicode.lookupLower at h
    split_ifs at h
    · rw [← Option.some.inj h]
      exact Nat.le_trans (of_decide_eq_true hall.1) (Nat.le_add_right _ _)
    · exact ih hall.2 h

/-- The rune of a code point has that code point, or is the rune 0 when the code point is
not valid. -/
theorem toNat_ofNat_cases (n : Nat) : (Char.ofNat n).toNat = n ∨ (Char.ofNat n).toNat = 0 := by
  unfold Char.ofNat
  split_ifs with hv
  · exact Or.inl rfl
  · exact Or.inr rfl

/-- The rune of a code point is the colon for the code point 58 only. -/
theorem ofNat_eq_colon (n : Nat) (h : Char.ofNat n = ':') : n = 58 := by
  have ht : (Char.ofNat n).toNat = 58 := by rw [h]; rfl
  rcases toNat_ofNat_cases n with hn | hn
  · rw [hn] at ht; exact ht
  · rw [hn] at ht; exact absurd ht (by decide)

/-- Lower-casing a rune gives a colon for the colon only. -/
theorem ToLower_eq_colon (c : Char) (h : unicode.ToLower c = ':') : c = ':' := by
  unfold unicode.ToLower at h
  split_ifs at h with hr hascii
  · exfalso
    obtain ⟨h1, h2⟩ := hr
    have h1' : 65 ≤ c.toNat := h1
    have h2' : c.toNat ≤ 90 := h2
    generalize c.toNat = n at h h1' h2'
    interval_cases n <;> exact absurd h (by decide)
  · exact h
  · cases hl : unicode.lookupLower c.toNat unicode.lowerRanges with
    | none =>
      rw [hl] at h
      exact h
    | some k =>
      rw [hl] at h
      have hk := ofNat_eq_colon k h
      have hge := lookupLower_ge 105 c.toNat k unicode.lowerRanges (by decide) hl
      omega

/-- Lower-casing a text brings in no colon. -/
theorem colon_not_mem_ToLower (s : List Char) (h : ':' ∉ s) : ':' ∉ strings.ToLower s := by
  intro hm
  rcases List.mem_map.1 hm with ⟨c, hc, hcl⟩
  rw [ToLower_eq_colon c hcl] at hc
  exact h hc

/-- When `match` finds `mer` in a file name without colon, all passes of `Match` see that
same result and the accumulator is `mer`. -/
theorem matchFields_of_one_fragment (fp : List Char) (mer : matchedEpisode)
    (hcolon : ':' ∉ (filepath.Split fp).2)
    (hm : matchLoop (strings.ToLower (filepath.Split fp).2) matcherEpisodeRegexs = some mer) :
    SimpleMatch.matchFields fp = mer := by
  have hds : filepath.SplitList (strings.ToLower (filepath.Split fp).2)
      = [] ∨ filepath.SplitList (strings.ToLower (filepath.Split fp).2)
      = [strings.ToLower (filepath.Split fp).2] := by
    unfold filepath.SplitList
    split_ifs
    · exact Or.inl rfl
    · exact Or.inr (splitOn_of_not_mem _ _ (colon_not_mem_ToLower _ hcolon))
  have h0 : passStandalone (strings.ToLower (filepath.Split fp).2) {} = mer := by
    unfold passStandalone «match»
    rw [hm]
  have h1 : passEmbedded (strings.ToLower (filepath.Split fp).2) mer = mer := by
    unfold passEmbedded «match»
    rw [hm]
    exact fillEmpty_self mer
  have h2 : passSeason (strings.ToLower (filepath.Split fp).2) mer = mer := by
    unfold passSeason «match»
    rw [hm]
    exact fillSeason_self mer
  unfold SimpleMatch.matchFields
  simp only [h0, h1]
  rcases hds with hds | hds
  · rw [hds]; rfl
  · rw [hds]
    simp [passParent, passGrandparent, h1, h2]

/-- C20: the fourth embedded pattern declares no show group, so for every path whose file name
contains no colon and, lower-cased as `Match` does, is matched by that pattern but by none of
the three embedded patterns before it, the accumulator holds the groups of that match, the show
field stays empty, and `Match` returns an empty list and no failure for every library. -/
theorem bare_numeric_block_no_show (d : Dictionaries) (m : SimpleMatch) (fp : List Char)
    (ms0 : List (List Char))
    (hcolon : ':' ∉ (filepath.Split fp).2)
    (h1 : rxSxxEyy.FindStringSubmatch (strings.ToLower (filepath.Split fp).2) = none)
    (h2 : rxSxxSepEyy.FindStringSubmatch (strings.ToLower (filepath.Split fp).2) = none)
    (h3 : rxNxNN.FindStringSubmatch (strings.ToLower (filepath.Split fp).2) = none)
    (h4 : rxNNN.FindStringSubmatch (strings.ToLower (filepath.Split fp).2) = some ms0) :
    "show".toList ∉ rxNNN.subexpNames ∧
    SimpleMatch.matchFields fp = parseMatches rxNNN ms0 ∧
    (SimpleMatch.matchFields fp).Show = [] ∧
    SimpleMatch.Match d m fp = ([], none) := by
  have hm : matchLoop (strings.ToLower (filepath.Split fp).2) matcherEpisodeRegexs
      = some (parseMatches rxNNN ms0) := by
    simp only [matcherEpisodeRegexs, matchLoop, h1, h2, h3, h4]
  have hf := matchFields_of_one_fragment fp _ hcolon hm
  have hs : (SimpleMatch.matchFields fp).Show = [] := by
    rw [hf]; exact parseMatches_Show rxNNN ms0 (by decide)
  exact ⟨by decide, hf, hs, Match_of_show_empty d m fp hs⟩

/-- Witness of C20: "show.602.mkv", in which the block gives season "6" and episode "02". -/
theorem bare_numeric_block_no_show_witness :
    ':' ∉ (filepath.Split "show.602.mkv".toList).2 ∧
    rxSxxEyy.FindStringSubmatch (strings.ToLower (filepath.Split "show.602.mkv".toList).2)
      = none ∧
    rxSxxSepEyy.FindStringSubmatch (strings.ToLower (filepath.Split "show.602.mkv".toList).2)
      = none ∧
    rxNxNN.FindStringSubmatch (strings.ToLower (filepath.Split "show.602.mkv".toList).2)
      = none ∧
    rxNNN.FindStringSubmatch (strings.ToLower (filepath.Split "show.602.mkv".toList).2)
      = some ["show.602.".toList, "show".toList, "6".toList, "02".toList, [], [], [],
          ".".toList] ∧
    ("show".toList ∉ rxNNN.subexpNames ∧
      SimpleMatch.matchFields "show.602.mkv".toList
        = parseMatches rxNNN ["show.602.".toList, "show".toList, "6".toList, "02".toList,
            [], [], [], ".".toList] ∧
      (SimpleMatch.matchFields "show.602.mkv".toList).Show = [] ∧
      SimpleMatch.Match sampleDictionaries ⟨constantLibrary [theWire]⟩ "show.602.mkv".toList
        = ([], none)) :=
  ⟨by decide, by decide, by decide, by decide, by decide,
    bare_numeric_block_no_show sampleDictionaries ⟨constantLibrary [theWire]⟩
      "show.602.mkv".toList _ (by decide) (by decide) (by decide) (by decide) (by decide)⟩

/-! ## Soundness of the matcher with respect to `Derives` -/

/-- The step over one rune is sound: a success consumed one rune satisfying `p`. -/
theorem stepRune_sound (p : Char → Bool) (s : MState) (k : MState → Option MState)
    (res : MState) (h : stepRune p s k = some res) :
    ∃ ch rest, s.rest = ch :: rest ∧ p ch = true ∧
      k ⟨s.pos + 1, rest, s.caps⟩ = some res := by
  unfold stepRune at h
  split at h
  · exact absurd h (by simp)
  · rename_i c cs hrest
    split_ifs at h with hp
    exact ⟨c, cs, hrest, hp, h⟩

/-- The repetition loop is sound as soon as its body is. -/
theorem repLoop_sound (r : Regex) (min : Nat) (max : Option Nat) (greedy : Bool)
    (hbody : ∀ (s : MState) (k : MState → Option MState) (res : MState),
      r.run s k = some res →
      ∃ w rest c, Derives r s.caps w c ∧ s.rest = w ++ rest ∧
        k ⟨s.pos + w.length, rest, c⟩ = some res)
    (fuel : Nat) : ∀ (cnt : Nat) (s : MState) (k : MState → Option MState) (res : MState),
      repLoop r.run min max greedy fuel cnt s k = some res →
      ∃ w rest c, Derives (.rep min max greedy r) s.caps w c ∧ s.rest = w ++ rest ∧
        k ⟨s.pos + w.length, rest, c⟩ = some res := by
  induction fuel with
  | zero =>
    intro cnt s k res h
    unfold repLoop at h
    split_ifs at h
    exact ⟨[], s.rest, s.caps, Derives.repNil _ _ _ _ _, rfl, h⟩
  | succ fuel ih =>
    intro cnt s k res h
    have hstop : ∀ res1, (if min ≤ cnt then k s else none) = some res1 →
        ∃ w rest c, Derives (.rep min max greedy r) s.caps w c ∧ s.rest = w ++ rest ∧
          k ⟨s.pos + w.length, rest, c⟩ = some res1 := by
      intro res1 hs
      split_ifs at hs
      exact ⟨[], s.rest, s.caps, Derives.repNil _ _ _ _ _, rfl, hs⟩
    have hmore : ∀ res1, r.run s (fun s1 =>
          if cnt < min ∨ s1.rest.length < s.rest.length then
            repLoop r.run min max greedy fuel (cnt + 1) s1 k
          else none) = some res1 →
        ∃ w rest c, Derives (.rep min max greedy r) s.caps w c ∧ s.rest = w ++ rest ∧
          k ⟨s.pos + w.length, rest, c⟩ = some res1 := by
      intro res1 hm
      obtain ⟨w1, rest1, c1, hd1, hr1, hk1⟩ := hbody _ _ _ hm
      simp only at hk1
      split_ifs at hk1
      obtain ⟨w2, rest2, c2, hd2, hr2, hk2⟩ := ih _ _ _ _ hk1
      simp only at hd2 hr2 hk2
      refine ⟨w1 ++ w2, rest2, c2, Derives.repCons hd1 hd2, ?_, ?_⟩
      · rw [hr1, hr2, List.append_assoc]
      · rw [List.length_append, ← Nat.add_assoc]; exact hk2
    unfold repLoop at h
    simp only at h
    cases greedy with
    | true =>
      simp only [if_true] at h
      split at h
      · rename_i r0 hr0
        have hres := Option.some.inj h
        subst hres
        split_ifs at hr0
        exact hmore _ hr0
      · exact hstop _ h
    | false =>
      simp only [Bool.false_eq_true, if_false] at h
      split at h
      · rename_i r0 hr0
        have hres := Option.some.inj h
        subst hres
        exact hstop _ hr0
      · split_ifs at h
        exact hmore _ h

/-- Every successful run of the matcher is a derivation: the continuation was entered after a
word `w`, a prefix of the input, was consumed, with captures that `Derives` allows. -/
theorem run_sound (r : Regex) : ∀ (s : MState) (k : MState → Option MState) (res : MState),
    r.run s k = some res →
    ∃ w rest c, Derives r s.caps w c ∧ s.rest = w ++ rest ∧
      k ⟨s.pos + w.length, rest, c⟩ = some res := by
  induction r with
  | empty =>
    intro s k res h
    exact ⟨[], s.rest, s.caps, Derives.empty _, rfl, h⟩
  | any =>
    intro s k res h
    obtain ⟨ch, rest, hr, _, hk⟩ := stepRune_sound _ s k res h
    exact ⟨[ch], rest, s.caps, Derives.any _ ch, hr, hk⟩
  | cls neg ranges =>
    intro s k res h
    obtain ⟨ch, rest, hr, hp, hk⟩ := stepRune_sound _ s k res h
    exact ⟨[ch], rest, s.caps, Derives.cls _ neg ranges ch hp, hr, hk⟩
  | bol =>
    intro s k res h
    unfold Regex.run at h
    split_ifs at h
    exact ⟨[], s.rest, s.caps, Derives.bol _, rfl, h⟩
  | eol =>
    intro s k res h
    unfold Regex.run at h
    split_ifs at h
    exact ⟨[], s.rest, s.caps, Derives.eol _, rfl, h⟩
  | cat a b iha ihb =>
    intro s k res h
    obtain ⟨w1, rest1, c1, hd1, hr1, hk1⟩ := iha s _ res h
    obtain ⟨w2, rest2, c2, hd2, hr2, hk2⟩ := ihb _ k res hk1
    simp only at hd2 hr2 hk2
    refine ⟨w1 ++ w2, rest2, c2, Derives.cat hd1 hd2, ?_, ?_⟩
    · rw [hr1, hr2, List.append_assoc]
    · rw [List.length_append, ← Nat.add_assoc]; exact hk2
  | alt a b iha ihb =>
    intro s k res h
    unfold Regex.run at h
    split at h
    · rename_i r0 hr0
      have hres := Option.some.inj h
      subst hres
      obtain ⟨w, rest, c, hd, hr, hk⟩ := iha s k _ hr0
      exact ⟨w, rest, c, Derives.altLeft b hd, hr, hk⟩
    · obtain ⟨w, rest, c, hd, hr, hk⟩ := ihb s k _ h
      exact ⟨w, rest, c, Derives.altRight a hd, hr, hk⟩
  | rep min max greedy r ih =>
    intro s k res h
    exact repLoop_sound r min max greedy ih _ 0 s k res h
  | group idx r ih =>
    intro s k res h
    obtain ⟨w, rest, c, hd, hr, hk⟩ := ih s _ res h
    refine ⟨w, rest, (idx, w) :: c, Derives.group idx hd, hr, ?_⟩
    simp only [hr, Nat.add_sub_cancel_left, List.take_left'] at hk
    exact hk

/-! ## The season and episode groups capture digits -/

/-- A rune within ranges that lie within `0`-`9` is a digit. -/
theorem isDigitRune_of_inRanges (c : Char) (ranges : List (Char × Char))
    (hd : digitRanges ranges = true) (hc : inRanges c ranges = true) : isDigitRune c = true := by
  unfold inRanges at hc
  unfold digitRanges at hd
  rw [List.any_eq_true] at hc
  rw [List.all_eq_true] at hd
  obtain ⟨r, hr, hcr⟩ := hc
  have hdr := hd r hr
  simp only [Bool.and_eq_true, decide_eq_true_eq] at hcr hdr
  unfold isDigitRune
  simp only [Bool.and_eq_true, decide_eq_true_eq]
  exact ⟨Nat.le_trans hdr.1 hcr.1, Nat.le_trans hcr.2 hdr.2⟩

/-- An expression that passes `digitsOnly` consumes digits only. -/
theorem digitsOnly_sound {r : Regex} {c c1 : List (Nat × List Char)} {w : List Char}
    (h : Derives r c w c1) : r.digitsOnly = true → AllDigits w := by
  induction h with
  | empty c => intro _ x hx; exact absurd hx (List.not_mem_nil x)
  | any c ch => intro hd; exact absurd hd (by simp [Regex.digitsOnly])
  | cls c neg ranges ch hp =>
    intro hd x hx
    simp only [Regex.digitsOnly, Bool.and_eq_true, Bool.not_eq_true'] at hd
    rw [hd.1] at hp
    have hin : inRanges ch ranges = true := by simpa using hp
    rw [List.mem_singleton.1 hx]
    exact isDigitRune_of_inRanges ch ranges hd.2 hin
  | bol c => intro _ x hx; exact absurd hx (List.not_mem_nil x)
  | eol c => intro _ x hx; exact absurd hx (List.not_mem_nil x)
  | cat _ _ iha ihb =>
    intro hd x hx
    simp only [Regex.digitsOnly, Bool.and_eq_true] at hd
    rcases List.mem_append.1 hx with hx | hx
    · exact iha hd.1 x hx
    · exact ihb hd.2 x hx
  | altLeft b _ ih =>
    intro hd
    simp only [Regex.digitsOnly, Bool.and_eq_true] at hd
    exact ih hd.1
  | altRight a _ ih =>
    intro hd
    simp only [Regex.digitsOnly, Bool.and_eq_true] at hd
    exact ih hd.2
  | repNil min max greedy r c => intro _ x hx; exact absurd hx (List.not_mem_nil x)
  | repCons _ _ ih1 ih2 =>
    intro hd x hx
    rcases List.mem_append.1 hx with hx | hx
    · exact ih1 (by simpa [Regex.digitsOnly] using hd) x hx
    · exact ih2 hd x hx
  | group idx _ ih =>
    intro hd
    exact ih (by simpa [Regex.digitsOnly] using hd)

/-- An expression that passes `digitGroups` only adds captures of digits for the groups
listed. -/
theorem digitGroups_sound (idxs : List Nat) {r : Regex} {c c1 : List (Nat × List Char)}
    {w : List Char} (h : Derives r c w c1) :
    r.digitGroups idxs = true → DigitCaps idxs c → DigitCaps idxs c1 := by
  induction h with
  | empty c => intro _ hc; exact hc
  | any c ch => intro _ hc; exact hc
  | cls c neg ranges ch hp => intro _ hc; exact hc
  | bol c => intro _ hc; exact hc
  | eol c => intro _ hc; exact hc
  | cat _ _ iha ihb =>
    intro hd hc
    simp only [Regex.digitGroups, Bool.and_eq_true] at hd
    exact ihb hd.2 (iha hd.1 hc)
  | altLeft b _ ih =>
    intro hd hc
    simp only [Regex.digitGroups, Bool.and_eq_true] at hd
    exact ih hd.1 hc
  | altRight a _ ih =>
    intro hd hc
    simp only [Regex.digitGroups, Bool.and_eq_true] at hd
    exact ih hd.2 hc
  | repNil min max greedy r c => intro _ hc; exact hc
  | repCons _ _ ih1 ih2 =>
    intro hd hc
    exact ih2 hd (ih1 (by simpa [Regex.digitGroups] using hd) hc)
  | group idx hder ih =>
    intro hd hc p hp hi
    simp only [Regex.digitGroups, Bool.and_eq_true, Bool.or_eq_true,
      Bool.not_eq_true'] at hd
    rcases List.mem_cons.1 hp with rfl | hp
    · rcases hd.1 with hno | hdig
      · have : idxs.contains idx = true := by simp [hi]
        rw [hno] at this
        exact Bool.noConfusion this
      · exact digitsOnly_sound hder hdig
    · exact ih hd.2 hc p hp hi

/-- The captures of a match found by the leftmost search come from a derivation. -/
theorem searchFrom_sound (re : Regex) (s : List Char) : ∀ (pos : Nat) (st : MState),
    searchFrom re pos s = some st → ∃ w, Derives (.group 0 re) [] w st.caps := by
  have key : ∀ (pos : Nat) (t : List Char) (st : MState),
      (Regex.group 0 re).run ⟨pos, t, []⟩ some = some st →
      ∃ w, Derives (.group 0 re) [] w st.caps := by
    intro pos t st h
    obtain ⟨w, rest, c, hd, _, hk⟩ := run_sound _ _ _ _ h
    have hst := Option.some.inj hk
    subst hst
    exact ⟨w, hd⟩
  induction s with
  | nil =>
    intro pos st h
    exact key pos [] st h
  | cons c cs ih =>
    intro pos st h
    unfold searchFrom at h
    split at h
    · rename_i r0 hr0
      have hres := Option.some.inj h
      subst hres
      exact key pos _ _ hr0
    · exact ih _ _ h

/-- The text returned for a listed group consists of digits. -/
theorem capture_digits (idxs : List Nat) (caps : List (Nat × List Char))
    (hc : DigitCaps idxs caps) (i : Nat) (hi : i ∈ idxs) : AllDigits (capture caps i) := by
  unfold capture
  split
  · rename_i p hp
    have hmem := List.mem_of_find?_eq_some hp
    have hidx := List.find?_some hp
    simp only [beq_iff_eq] at hidx
    exact hc p hmem (by rw [hidx]; exact hi)
  · intro x hx; exact absurd hx (List.not_mem_nil x)

/-- The captures of a match of an expression that passes `digitGroups` are digits for the
groups listed. -/
theorem FindStringSubmatch_caps (rx : Regexp) (idxs : List Nat) (t : List Char)
    (ms0 : List (List Char)) (h0 : 0 ∉ idxs) (hd : rx.re.digitGroups idxs = true)
    (h : rx.FindStringSubmatch t = some ms0) :
    ∃ caps, DigitCaps idxs caps ∧
      ms0 = (List.range rx.subexpNames.length).map (capture caps) := by
  unfold Regexp.FindStringSubmatch at h
  split at h
  · exact absurd h (by simp)
  · rename_i st hst
    obtain ⟨w, hder⟩ := searchFrom_sound _ _ _ _ hst
    refine ⟨st.caps, ?_, (Option.some.inj h).symm⟩
    refine digitGroups_sound idxs hder ?_ (fun p hp => absurd hp (List.not_mem_nil p))
    simp [Regex.digitGroups, hd, h0]

/-- The empty accumulator has digit fields. -/
theorem DigitFields.empty : DigitFields {} :=
  ⟨fun x hx => absurd hx (List.not_mem_nil x), fun x hx => absurd hx (List.not_mem_nil x)⟩

/-- A match of the first embedded pattern has a season and an episode of digits. -/
theorem DigitFields.rxSxxEyy (t : List Char) (ms0 : List (List Char))
    (h : rxSxxEyy.FindStringSubmatch t = some ms0) :
    DigitFields (parseMatches Minutes.rxSxxEyy ms0) := by
  obtain ⟨caps, hc, rfl⟩ :=
    FindStringSubmatch_caps Minutes.rxSxxEyy [2, 3] t ms0 (by decide) (by decide) h
  exact ⟨capture_digits _ _ hc 2 (by decide), capture_digits _ _ hc 3 (by decide)⟩

/-- A match of the second embedded pattern has a season and an episode of digits. -/
theorem DigitFields.rxSxxSepEyy (t : List Char) (ms0 : List (List Char))
    (h : rxSxxSepEyy.FindStringSubmatch t = some ms0) :
    DigitFields (parseMatches Minutes.rxSxxSepEyy ms0) := by
  obtain ⟨caps, hc, rfl⟩ :=
    FindStringSubmatch_caps Minutes.rxSxxSepEyy [2, 3] t ms0 (by decide) (by decide) h
  exact ⟨capture_digits _ _ hc 2 (by decide), capture_digits _ _ hc 3 (by decide)⟩

/-- A match of the third embedded pattern has a season and an episode of digits. -/
theorem DigitFields.rxNxNN (t : List Char) (ms0 : List (List Char))
    (h : rxNxNN.FindStringSubmatch t = some ms0) :
    DigitFields (parseMatches Minutes.rxNxNN ms0) := by
  obtain ⟨caps, hc, rfl⟩ :=
    FindStringSubmatch_caps Minutes.rxNxNN [3, 4] t ms0 (by decide) (by decide) h
  exact ⟨capture_digits _ _ hc 3 (by decide), capture_digits _ _ hc 4 (by decide)⟩

/-- A match of the fourth embedded pattern has a season and an episode of digits. -/
theorem DigitFields.rxNNN (t : List Char) (ms0 : List (List Char))
    (h : rxNNN.FindStringSubmatch t = some ms0) :
    DigitFields (parseMatches Minutes.rxNNN ms0) := by
  obtain ⟨caps, hc, rfl⟩ :=
    FindStringSubmatch_caps Minutes.rxNNN [2, 3] t ms0 (by decide) (by decide) h
  exact ⟨capture_digits _ _ hc 2 (by decide), capture_digits _ _ hc 3 (by decide)⟩

/-- Whatever `match` returns has a season and an episode of digits. -/
theorem DigitFields.of_match (rxs : List Regexp) (t : List Char) (mer : matchedEpisode)
    (h : «match» rxs t = some mer) : DigitFields mer := by
  unfold «match» at h
  simp only [matcherEpisodeRegexs, matchLoop] at h
  split at h
  · rename_i ms0 h1
    rw [← Option.some.inj h]; exact DigitFields.rxSxxEyy t ms0 h1
  · split at h
    · rename_i ms0 h2
      rw [← Option.some.inj h]; exact DigitFields.rxSxxSepEyy t ms0 h2
    · split at h
      · rename_i ms0 h3
        rw [← Option.some.inj h]; exact DigitFields.rxNxNN t ms0 h3
      · split at h
        · rename_i ms0 h4
          rw [← Option.some.inj h]; exact DigitFields.rxNNN t ms0 h4
        · exact absurd h (by simp)

/-- Filling from a result with digit fields keeps the digit fields. -/
theorem DigitFields.fillEmpty (me mer : matchedEpisode) (h1 : DigitFields me)
    (h2 : DigitFields mer) : DigitFields (fillEmpty me mer) := by
  unfold Minutes.fillEmpty
  by_cases c1 : mer.Show ≠ [] ∧ me.Show = [] <;>
    by_cases c2 : mer.Season ≠ [] ∧ me.Season = [] <;>
    by_cases c3 : mer.Episode ≠ [] ∧ me.Episode = [] <;>
    simp only [c1, c2, c3, if_true, if_false, not_false_eq_true, and_self, ne_eq] <;>
    first
      | exact ⟨h1.1, h1.2⟩
      | exact ⟨h2.1, h1.2⟩
      | exact ⟨h1.1, h2.2⟩
      | exact ⟨h2.1, h2.2⟩

/-- Filling the season from a result with digit fields keeps the digit fields. -/
theorem DigitFields.fillSeason (me mer : matchedEpisode) (h1 : DigitFields me)
    (h2 : DigitFields mer) : DigitFields (fillSeason me mer) := by
  unfold Minutes.fillSeason
  split_ifs
  · exact ⟨h2.1, h1.2⟩
  · exact h1

/-- The accumulator of `Match` has a season and an episode of digits. -/
theorem DigitFields.matchFields (fp : List Char) : DigitFields (SimpleMatch.matchFields fp) := by
  have hE : ∀ t me, DigitFields me → DigitFields (passEmbedded t me) := by
    intro t me hme
    unfold passEmbedded
    split
    · rename_i mer hmer
      exact DigitFields.fillEmpty me mer hme (DigitFields.of_match _ t mer hmer)
    · exact hme
  have hS : ∀ t me, DigitFields me → DigitFields (passSeason t me) := by
    intro t me hme
    unfold passSeason
    split
    · rename_i mer hmer
      exact DigitFields.fillSeason me mer hme (DigitFields.of_match _ t mer hmer)
    · exact hme
  have h0 : ∀ t, DigitFields (passStandalone t {}) := by
    intro t
    unfold passStandalone
    split
    · rename_i mer hmer
      exact DigitFields.of_match _ t mer hmer
    · exact DigitFields.empty
  have hP : ∀ ds me, DigitFields me → DigitFields (passParent ds me) := by
    intro ds me hme
    unfold passParent
    split_ifs
    · exact hE _ _ (hS _ _ hme)
    · exact hme
  have hG : ∀ ds me, DigitFields me → DigitFields (passGrandparent ds me) := by
    intro ds me hme
    unfold passGrandparent
    split_ifs
    · exact hE _ _ hme
    · exact hme
  exact hG _ _ (hP _ _ (hE _ _ (h0 _)))

/-- The value `strconv.Atoi` gives for a text of digits is not negative. -/
theorem Atoi_nonneg (s : List Char) (h : AllDigits s) : 0 ≤ (strconv.Atoi s).1 := by
  have hneg : (s.head? == some '-') = false := by
    cases s with
    | nil => rfl
    | cons c cs =>
      have hc := h c (List.mem_cons_self _ _)
      by_contra hcon
      have hceq : c = '-' := by simpa using hcon
      rw [hceq] at hc
      exact absurd hc (by decide)
  unfold strconv.Atoi
  simp only [hneg]
  generalize (if (false || s.head? == some '+') = true then s.tail else s) = body
  by_cases hb : body.isEmpty = true
  · rw [if_pos hb]
  · rw [if_neg hb]
    cases hd : strconv.digitsValue body 0 with
    | none => exact le_refl _
    | some un =>
      simp only [Bool.not_false, Bool.true_and, Bool.false_and, Bool.false_eq_true, if_false]
      by_cases h1 : decide (2 ^ 63 ≤ un) = true
      · rw [if_pos h1]
        norm_num
      · rw [if_neg h1]
        exact Int.ofNat_nonneg un

/-! ## C14: seasons and numbers are not negative -/

/-- C14: for every path and every library, every episode returned by `Match` has a season and
a number that are not negative, since the season and episode tokens of the accumulator consist
of decimal digits only. -/
theorem non_negative_numbers (d : Dictionaries) (m : SimpleMatch) (fp : List Char)
    (ep : UserEpisode) (h : ep ∈ (SimpleMatch.Match d m fp).1) :
    AllDigits (SimpleMatch.matchFields fp).Season ∧
    AllDigits (SimpleMatch.matchFields fp).Episode ∧
    0 ≤ ep.Season ∧ 0 ≤ ep.Number := by
  have hf := DigitFields.matchFields fp
  refine ⟨hf.1, hf.2, ?_⟩
  rcases Match_cases d m fp with h0 | ⟨e, h0⟩ | ⟨sh, h0⟩
  · rw [h0] at h; exact absurd h (List.not_mem_nil ep)
  · rw [h0] at h; exact absurd h (List.not_mem_nil ep)
  · rw [h0] at h
    have hep := List.mem_singleton.1 h
    subst hep
    exact ⟨Atoi_nonneg _ hf.1, Atoi_nonneg _ hf.2⟩

/-- Witness of C14: the episode returned for the path of the scenario. -/
theorem non_negative_numbers_witness :
    ({ ShowID := "2993".toList, Season := 3, Number := 4, Files := [wireFile] } : UserEpisode)
      ∈ (SimpleMatch.Match sampleDictionaries ⟨constantLibrary [theWire]⟩ wirePath).1 ∧
    (AllDigits (SimpleMatch.matchFields wirePath).Season ∧
      AllDigits (SimpleMatch.matchFields wirePath).Episode ∧
      (0 : Int) ≤ 3 ∧ (0 : Int) ≤ 4) :=
  ⟨by decide, non_negative_numbers sampleDictionaries ⟨constantLibrary [theWire]⟩ wirePath
    { ShowID := "2993".toList, Season := 3, Number := 4, Files := [wireFile] } (by decide)⟩

/-! ## C15 and C16: the lookups of the Trakt library -/

/-- A text with a rune that is not a digit has no value. -/
theorem digitsValue_of_not_all (body : List Char) (h : body.all isDigitRune = false) :
    ∀ acc, strconv.digitsValue body acc = none := by
  induction body with
  | nil => exact absurd h (by simp)
  | cons c cs ih =>
    intro acc
    unfold strconv.digitsValue
    by_cases hc : '0'.toNat ≤ c.toNat ∧ c.toNat ≤ '9'.toNat
    · rw [if_pos hc]
      have hd : isDigitRune c = true := by
        unfold isDigitRune
        simp only [Bool.and_eq_true, decide_eq_true_eq]
        exact hc
      rw [List.all_cons, hd, Bool.true_and] at h
      exact ih h _
    · rw [if_neg hc]

/-- The conversion of a text that is not a decimal integer fails. -/
theorem Atoi_of_not_decimal (s : List Char) (h : isDecimalInteger s = false) :
    (strconv.Atoi s).2 = some Error.ErrSyntax := by
  unfold isDecimalInteger at h
  unfold strconv.Atoi
  simp only at h ⊢
  generalize (if (s.head? == some '-' || s.head? == some '+') = true then s.tail else s)
    = body at h ⊢
  by_cases hb : body.isEmpty = true
  · rw [if_pos hb]
  · rw [if_neg hb]
    have hall : body.all isDigitRune = false := by
      have hb2 : body.isEmpty = false := by simpa using hb
      rw [hb2] at h
      simpa using h
    rw [digitsValue_of_not_all body hall 0]

/-- C15: for every show identifier that is not a decimal integer, `GetShow`,
`GetSeasonsByShow`, `GetEpisodeByNumber` and `GetEpisodesBySeasonNumber` each return no value
together with `ErrInternalServer`, whatever the remote client is; and whenever the lookup of the
remote client reports an error they likewise return no value and `ErrInternalServer`. -/
theorem trakt_lookups_reject {TShow TSeason TEpisode Season Episode : Type}
    (l : TraktLibrary TShow TSeason TEpisode Season Episode) (showID : List Char)
    (sn en : Int) :
    (isDecimalInteger showID = false →
      l.GetShow showID = (none, some Error.ErrInternalServer) ∧
      l.GetSeasonsByShow showID = (none, some Error.ErrInternalServer) ∧
      l.GetEpisodeByNumber showID sn en = (none, some Error.ErrInternalServer) ∧
      l.GetEpisodesBySeasonNumber showID sn = (none, some Error.ErrInternalServer)) ∧
    ((l.client.ShowsOne (strconv.Atoi showID).1).2 ≠ none →
      l.GetShow showID = (none, some Error.ErrInternalServer)) ∧
    ((l.client.SeasonsAll (strconv.Atoi showID).1).2 ≠ none →
      l.GetSeasonsByShow showID = (none, some Error.ErrInternalServer)) ∧
    ((l.client.EpisodesOneBySeasonByNumber (strconv.Atoi showID).1 sn en).2 ≠ none →
      l.GetEpisodeByNumber showID sn en = (none, some Error.ErrInternalServer)) ∧
    ((l.client.EpisodesAllBySeason (strconv.Atoi showID).1 sn).2 ≠ none →
      l.GetEpisodesBySeasonNumber showID sn = (none, some Error.ErrInternalServer)) := by
  refine ⟨fun h => ?_, fun h => ?_, fun h => ?_, fun h => ?_, fun h => ?_⟩
  · have ha := Atoi_of_not_decimal showID h
    unfold TraktLibrary.GetShow TraktLibrary.GetSeasonsByShow TraktLibrary.GetEpisodeByNumber
      TraktLibrary.GetEpisodesBySeasonNumber
    simp only [ha, and_self]
  · unfold TraktLibrary.GetShow
    cases ha : (strconv.Atoi showID).2 with
    | some e => rfl
    | none =>
      cases hc : (l.client.ShowsOne (strconv.Atoi showID).1).2 with
      | some e => simp only [hc]
      | none => exact absurd hc h
  · unfold TraktLibrary.GetSeasonsByShow
    cases ha : (strconv.Atoi showID).2 with
    | some e => rfl
    | none =>
      cases hc : (l.client.SeasonsAll (strconv.Atoi showID).1).2 with
      | some e => simp only [hc]
      | none => exact absurd hc h
  · unfold TraktLibrary.GetEpisodeByNumber
    cases ha : (strconv.Atoi showID).2 with
    | some e => rfl
    | none =>
      cases hc : (l.client.EpisodesOneBySeasonByNumber (strconv.Atoi showID).1 sn en).2 with
      | some e => simp only [hc]
      | none => exact absurd hc h
  · unfold TraktLibrary.GetEpisodesBySeasonNumber
    cases ha : (strconv.Atoi showID).2 with
    | some e => rfl
    | none =>
      cases hc : (l.client.EpisodesAllBySeason (strconv.Atoi showID).1 sn).2 with
      | some e => simp only [hc]
      | none => exact absurd hc h

/-- Witness of C15: the identifier "29x3" with a client that is up, and the identifier "2993"
with a client that is down. -/
theorem trakt_lookups_reject_witness :
    isDecimalInteger "29x3".toList = false ∧
    isDecimalInteger "2993".toList = true ∧
    ((sampleTrakt upClient).GetShow "29x3".toList = (none, some Error.ErrInternalServer) ∧
      (sampleTrakt upClient).GetSeasonsByShow "29x3".toList
        = (none, some Error.ErrInternalServer) ∧
      (sampleTrakt upClient).GetEpisodeByNumber "29x3".toList 3 4
        = (none, some Error.ErrInternalServer) ∧
      (sampleTrakt upClient).GetEpisodesBySeasonNumber "29x3".toList 3
        = (none, some Error.ErrInternalServer)) ∧
    (sampleTrakt (downClient (Error.other 503))).GetShow "2993".toList
      = (none, some Error.ErrInternalServer) ∧
    (sampleTrakt (downClient (Error.other 503))).GetSeasonsByShow "2993".toList
      = (none, some Error.ErrInternalServer) ∧
    (sampleTrakt (downClient (Error.other 503))).GetEpisodeByNumber "2993".toList 3 4
      = (none, some Error.ErrInternalServer) ∧
    (sampleTrakt (downClient (Error.other 503))).GetEpisodesBySeasonNumber "2993".toList 3
      = (none, some Error.ErrInternalServer) ∧
    (sampleTrakt upClient).GetShow "2993".toList
      = (some { IDs := { Trakt := 2993 }, Title := [] }, none) :=
  ⟨by decide, by decide,
    (trakt_lookups_reject (sampleTrakt upClient) "29x3".toList 3 4).1 (by decide),
    (trakt_lookups_reject (sampleTrakt (downClient (Error.other 503)))
      "2993".toList 3 4).2.1 (by decide),
    (trakt_lookups_reject (sampleTrakt (downClient (Error.other 503)))
      "2993".toList 3 4).2.2.1 (by decide),
    (trakt_lookups_reject (sampleTrakt (downClient (Error.other 503)))
      "2993".toList 3 4).2.2.2.1 (by decide),
    (trakt_lookups_reject (sampleTrakt (downClient (Error.other 503)))
      "2993".toList 3 4).2.2.2.2 (by decide),
    by decide⟩

/-- C16, code evaluated: `GetSeasonByNumber` never returns a season; its error is
`ErrInternalServer` or `ErrNotImplemented`, and it is `ErrNotImplemented` whenever the
identifier converts, the lookup of the remote client succeeds and the conversion of the season
succeeds, as for the identifier "2993" and season 3 with a client that is up. -/
theorem GetSeasonByNumber_not_implemented {TShow TSeason TEpisode Season Episode : Type}
    (l : TraktLibrary TShow TSeason TEpisode Season Episode) (showID : List Char) (sn : Int) :
    (l.GetSeasonByNumber showID sn).1 = none ∧
    ((l.GetSeasonByNumber showID sn).2 = some Error.ErrInternalServer ∨
      (l.GetSeasonByNumber showID sn).2 = some Error.ErrNotImplemented) ∧
    ((strconv.Atoi showID).2 = none →
      (l.client.SeasonsByNumber (strconv.Atoi showID).1 sn).2 = none →
      (l.seasonJSON.Marshal (l.client.SeasonsByNumber (strconv.Atoi showID).1 sn).1).2
        = none →
      l.GetSeasonByNumber showID sn = (none, some Error.ErrNotImplemented)) ∧
    upClient.SeasonsByNumber 2993 3 = (3, none) ∧
    (sampleTrakt upClient).GetSeasonByNumber "2993".toList 3
      = (none, some Error.ErrNotImplemented) := by
  have key : l.GetSeasonByNumber showID sn = (none, some Error.ErrInternalServer) ∨
      l.GetSeasonByNumber showID sn = (none, some Error.ErrNotImplemented) := by
    unfold TraktLibrary.GetSeasonByNumber
    cases ha : (strconv.Atoi showID).2 with
    | some e => exact Or.inl rfl
    | none =>
      cases hc : (l.client.SeasonsByNumber (strconv.Atoi showID).1 sn).2 with
      | some e => simp only [hc, true_or]
      | none =>
        cases hm : (l.seasonJSON.Marshal
            (l.client.SeasonsByNumber (strconv.Atoi showID).1 sn).1).2 with
        | some e => simp only [hc, hm, true_or]
        | none => simp only [hc, hm, or_true]
  refine ⟨?_, ?_, ?_, by decide, by decide⟩
  · rcases key with h | h <;> rw [h]
  · rcases key with h | h <;> rw [h]
    · exact Or.inl rfl
    · exact Or.inr rfl
  · intro ha hc hm
    unfold TraktLibrary.GetSeasonByNumber
    simp only [ha, hc, hm]

end Minutes
